import Mathlib

/-!
Verification development for the borgwrap backup-policy compiler
(src/borgwraplib/app.py).

The configuration document produced by the YAML loader is modelled by the
dynamic `Value` type; Python runtime failures (KeyError, IndexError,
TypeError, ValueError, subprocess.CalledProcessError) are modelled by the
`PyErr` type and `Except PyErr` computations.  Pure command compilation
(the body of `run`, `action_create`, `action_prune` up to the point where
the subprocess is launched) is embedded as `Except`-valued functions; the
effectful layer (hook execution and tool invocation, with the order of
launched processes) is embedded as the `RunM` trace monad below.
-/

/-- Python exceptions that the embedded code can raise. -/
inductive PyErr where
  | keyError : String → PyErr
  | indexError : PyErr
  | typeError : PyErr
  | valueError : PyErr
  | calledProcessError : Int → PyErr
deriving DecidableEq

/-- A dynamic value of the configuration document, as produced by
`yaml.safe_load` (mapping keys are modelled as strings, which covers every
document the program's schema describes). -/
inductive Value where
  | vNull : Value
  | vBool : Bool → Value
  | vInt : Int → Value
  | vStr : String → Value
  | vList : List Value → Value
  | vMap : List (String × Value) → Value

/-- First-match association lookup; documents loaded from YAML have unique
keys, so the match order is irrelevant for them. -/
def lookupV : List (String × Value) → String → Option Value
  | [], _ => none
  | (k, v) :: rest, key => if k = key then some v else lookupV rest key

/-- Python subscripting `container[key]` with a string key: succeeds on a
mapping that has the key, raises KeyError on a mapping without it, and
raises TypeError on every non-mapping value. -/
def getItem : Value → String → Except PyErr Value
  | Value.vMap m, k =>
    match lookupV m k with
    | some v => Except.ok v
    | none => Except.error (PyErr.keyError k)
  | _, _ => Except.error PyErr.typeError

/-- Python `key in container` for a string key: key test on a mapping,
element test on a list, substring test on a string, TypeError otherwise. -/
def contains : Value → String → Except PyErr Bool
  | Value.vMap m, k => Except.ok (lookupV m k).isSome
  | Value.vList l, k =>
    Except.ok (l.any fun v => match v with | Value.vStr s => s = k | _ => false)
  | Value.vStr s, k => Except.ok (k.isEmpty || (s.splitOn k).length != 1)
  | _, _ => Except.error PyErr.typeError

/-- Python iteration `for x in v`: list elements, string characters,
mapping keys; TypeError on scalars. -/
def pyIter : Value → Except PyErr (List Value)
  | Value.vList l => Except.ok l
  | Value.vStr s => Except.ok (s.toList.map fun c => Value.vStr (String.mk [c]))
  | Value.vMap m => Except.ok (m.map fun kv => Value.vStr kv.1)
  | _ => Except.error PyErr.typeError

/-- Python list concatenation `[x] + v` demands that `v` is a list. -/
def asList : Value → Except PyErr (List Value)
  | Value.vList l => Except.ok l
  | _ => Except.error PyErr.typeError

/-- Contexts that demand a `str` (string concatenation, `strptime`, and the
per-argument validation `subprocess.run` performs on its argv). -/
def asStr : Value → Except PyErr String
  | Value.vStr s => Except.ok s
  | _ => Except.error PyErr.typeError

/-- Contexts that compare a value with an `int` (`size < min_size`):
Python `bool` is an `int` subtype, every other non-int raises TypeError. -/
def asInt : Value → Except PyErr Int
  | Value.vInt n => Except.ok n
  | Value.vBool b => Except.ok (if b then 1 else 0)
  | _ => Except.error PyErr.typeError

/-- Python integer subscripting `v[i]` for a non-negative index:
list element, single-character string, KeyError on a string-keyed mapping,
TypeError on scalars. -/
def pyIndex : Value → Nat → Except PyErr Value
  | Value.vList l, i =>
    match l[i]? with
    | some v => Except.ok v
    | none => Except.error PyErr.indexError
  | Value.vStr s, i =>
    match s.toList[i]? with
    | some c => Except.ok (Value.vStr (String.mk [c]))
    | none => Except.error PyErr.indexError
  | Value.vMap _, i => Except.error (PyErr.keyError (toString i))
  | _, _ => Except.error PyErr.typeError

mutual

/-- Python `repr` for the value types of the model (string escaping inside
container reprs is simplified to plain quoting; the program only ever
stringifies scalar retention values). -/
def pyRepr : Value → String
  | Value.vNull => "None"
  | Value.vBool true => "True"
  | Value.vBool false => "False"
  | Value.vInt n => toString n
  | Value.vStr s => "\x27" ++ s ++ "\x27"
  | Value.vList l => "[" ++ pyReprItems l ++ "]"
  | Value.vMap m => "\x7b" ++ pyReprPairs m ++ "\x7d"

/-- Comma-separated reprs of list items. -/
def pyReprItems : List Value → String
  | [] => ""
  | [v] => pyRepr v
  | v :: rest => pyRepr v ++ ", " ++ pyReprItems rest

/-- Comma-separated reprs of mapping entries. -/
def pyReprPairs : List (String × Value) → String
  | [] => ""
  | [(k, v)] => "\x27" ++ k ++ "\x27: " ++ pyRepr v
  | (k, v) :: rest => "\x27" ++ k ++ "\x27: " ++ pyRepr v ++ ", " ++ pyReprPairs rest

end

/-- Python `str(v)`: identity on strings, `repr` on the other value types
of the model. -/
def pyStr : Value → String
  | Value.vStr s => s
  | v => pyRepr v

/-- Lower-casing as `str.lower` performs it on the ASCII strings the
program compares against (yes, true). -/
def strLower (s : String) : String := String.mk (s.toList.map Char.toLower)

/-- app.py lines 76-84, `config_is_true`: a native bool is itself; a string
is true when it lowercases to yes or true; otherwise the value is true
exactly when it equals the integer 1. -/
def config_is_true : Value → Bool
  | Value.vBool b => b
  | Value.vStr s => strLower s = "yes" || strLower s = "true"
  | Value.vInt n => n == 1
  | _ => false

/-- isinstance-based normalization at app.py lines 107-108: a plain string
source becomes a one-element list, anything else is left unchanged. -/
def normSource : Value → Value
  | Value.vStr s => Value.vList [Value.vStr s]
  | v => v

/-- The unresolved archive-timestamp placeholder of app.py line 90; it is
passed to the external tool verbatim and never resolved locally. -/
def timestampTemplate : String := "\x7butcnow:%Y-%m-%dT%H:%M:%SZ\x7d"

/-- The loop of app.py lines 122-123 and 126-127: one flag/value pair per
iterated entry, in iteration order. -/
def pairFlags (flag : String) (items : List Value) : List Value :=
  (items.map fun e => [Value.vStr flag, e]).flatten

/-- The per-argument string validation `subprocess.run` applies to the
assembled argv before launching the process. -/
def tokenize : List Value → Except PyErr (List String)
  | [] => Except.ok []
  | v :: rest => do
    let s ← asStr v
    let restS ← tokenize rest
    Except.ok (s :: restS)

/-- app.py lines 87-101 (`run`) up to, and excluding, the process launch:
repository lookup, optional archive-template suffix, the BORG_RSH
environment probe (which does not alter the argv), list concatenation of
the trailing arguments, and argv assembly plus validation. -/
def run_cmds (action : String) (config : Value) (archive : Bool)
    (args : List Value) (trailing : Value) : Except PyErr (List String) := do
  let remote ← getItem config ("remote")
  let repoV ← getItem remote ("repository")
  let repoTok ←
    if archive then do
      let repoS ← asStr repoV
      let remote2 ← getItem config ("remote")
      let prefixV ← getItem remote2 ("prefix")
      Except.ok (Value.vStr (repoS ++ "::" ++ pyStr prefixV ++ "-" ++ timestampTemplate))
    else Except.ok repoV
  let remote3 ← getItem config ("remote")
  let _ ← contains remote3 ("rsh")
  let trailingL ← asList trailing
  tokenize (Value.vStr ("borgbackup") :: Value.vStr action :: (args ++ [repoTok] ++ trailingL))

/-- app.py lines 112-113: probe a section for an optional field and, when
present, emit the flag with the raw field value. -/
def optValueFlag (config : Value) (sec key flag : String) : Except PyErr (List Value) := do
  let s ← getItem config sec
  let b ← contains s key
  if b then do
    let s2 ← getItem config sec
    let v ← getItem s2 key
    Except.ok [Value.vStr flag, v]
  else Except.ok []

/-- app.py lines 115-116 and 118-119: probe the location section for an
optional field and emit the bare flag when the field is present and
truthy. -/
def truthyFlag (config : Value) (key flag : String) : Except PyErr (List Value) := do
  let l ← getItem config ("location")
  let b ← contains l key
  if b then do
    let l2 ← getItem config ("location")
    let v ← getItem l2 key
    Except.ok (if config_is_true v then [Value.vStr flag] else [])
  else Except.ok []

/-- app.py lines 121-123 and 125-127: probe the location section for an
optional field and emit one flag/value pair per iterated entry. -/
def iterFlag (config : Value) (key flag : String) : Except PyErr (List Value) := do
  let l ← getItem config ("location")
  let b ← contains l key
  if b then do
    let l2 ← getItem config ("location")
    let v ← getItem l2 key
    let items ← pyIter v
    Except.ok (pairFlags flag items)
  else Except.ok []

/-- app.py lines 105-132 (`action_create`) up to, and excluding, the
process launch; each conditional block of the source is one of the helper
probes above, in the source's order, and every configuration access is
re-performed exactly where the source performs it. -/
def action_create_cmds (config : Value) (dry : Bool) : Except PyErr (List String) := do
  let loc ← getItem config ("location")
  let source0 ← getItem loc ("source")
  let source := normSource source0
  let compPart ← optValueFlag config ("remote") ("compression") ("--compression")
  let ofsPart ← truthyFlag config ("one_file_system") ("--one-file-system")
  let ecPart ← truthyFlag config ("exclude_caches") ("--exclude-caches")
  let eipPart ← iterFlag config ("exclude_if_present") ("--exclude-if-present")
  let exPart ← iterFlag config ("exclude") ("--exclude")
  let dryPart := if dry then [Value.vStr ("--dry-run")] else []
  run_cmds ("create") config true
    (compPart ++ ofsPart ++ ecPart ++ eipPart ++ exPart ++ dryPart) source

/-- The retention-flag pattern repeated at app.py lines 185-204: probe the
retention section for the key and, when present, emit the flag and the
stringified value. -/
def keepFlag (config : Value) (key : String) (flag : String) : Except PyErr (List Value) := do
  let r ← getItem config ("retention")
  let b ← contains r key
  if b then do
    let r2 ← getItem config ("retention")
    let v ← getItem r2 key
    Except.ok [Value.vStr flag, Value.vStr (pyStr v)]
  else Except.ok []

/-- app.py lines 178-206 (`action_prune`) up to, and excluding, the
process launch. -/
def action_prune_cmds (config : Value) (dry : Bool) : Except PyErr (List String) := do
  let remote ← getItem config ("remote")
  let prefixV ← getItem remote ("prefix")
  let base := [Value.vStr ("--stats"), Value.vStr ("--list"), Value.vStr ("--prefix"), prefixV]
  let dryPart := if dry then [Value.vStr ("--dry-run")] else []
  let kl ← keepFlag config ("keep_last") ("--keep-last")
  let kw ← keepFlag config ("keep_within") ("--keep-within")
  let kh ← keepFlag config ("keep_hourly") ("--keep-hourly")
  let kd ← keepFlag config ("keep_daily") ("--keep-daily")
  let kwe ← keepFlag config ("keep_weekly") ("--keep-weekly")
  let km ← keepFlag config ("keep_monthly") ("--keep-monthly")
  let ky ← keepFlag config ("keep_yearly") ("--keep-yearly")
  run_cmds ("prune") config false
    (base ++ dryPart ++ kl ++ kw ++ kh ++ kd ++ kwe ++ km ++ ky) (Value.vList [])

/-- One observable process launch: a shell hook (`SubprocessRunner.run_hook`)
or an external-tool invocation (`SubprocessRunner.run`, recorded by its
argv as the test spy records it). -/
inductive Event where
  | hookRun : String → Event
  | toolRun : List String → Event
deriving DecidableEq

/-- Outcome of an effectful step: the Python result (or uncaught exception)
together with the full list of processes launched so far. -/
structure RunResult (α : Type) where
  res : Except PyErr α
  trace : List Event

/-- Trace monad for the effectful layer: a computation extends the list of
launched processes and either returns or raises; a raise preserves the
processes already launched. -/
def RunM (α : Type) := List Event → RunResult α

instance : Monad RunM where
  pure a := fun t => ⟨Except.ok a, t⟩
  bind x f := fun t =>
    match x t with
    | ⟨Except.ok a, t2⟩ => f a t2
    | ⟨Except.error e, t2⟩ => ⟨Except.error e, t2⟩

/-- Raising or returning without launching a process. -/
def liftE {α : Type} (e : Except PyErr α) : RunM α := fun t => ⟨e, t⟩

/-- External behavior of the launched processes: the exit status of each
shell hook and of each tool invocation. -/
structure ExecEnv where
  hookExit : String → Int
  toolExit : List String → Int

/-- `SubprocessRunner.run_hook` (app.py lines 17-18): launch the shell
command, wait, and raise CalledProcessError on a non-zero exit
(`check=True`). -/
def run_hook (env : ExecEnv) (hook : String) : RunM Unit := fun t =>
  ⟨if env.hookExit hook = 0 then Except.ok ()
    else Except.error (PyErr.calledProcessError (env.hookExit hook)),
   t ++ [Event.hookRun hook]⟩

/-- `SubprocessRunner.run` (app.py lines 14-15): launch the tool with the
validated argv, wait, and raise CalledProcessError on a non-zero exit
(`check=True`). -/
def runTool (env : ExecEnv) (toks : List String) : RunM Unit := fun t =>
  ⟨if env.toolExit toks = 0 then Except.ok ()
    else Except.error (PyErr.calledProcessError (env.toolExit toks)),
   t ++ [Event.toolRun toks]⟩

/-- app.py lines 87-102 (`run`): compile and validate the argv, then launch
the tool. -/
def run (env : ExecEnv) (action : String) (config : Value) (archive : Bool)
    (args : List Value) (trailing : Value) : RunM Unit := do
  let toks ← liftE (run_cmds action config archive args trailing)
  runTool env toks

/-- app.py lines 105-132 (`action_create`): compile the create argv and
launch it. -/
def action_create (env : ExecEnv) (config : Value) (dry : Bool) : RunM Unit := do
  let toks ← liftE (action_create_cmds config dry)
  runTool env toks

/-- app.py lines 178-206 (`action_prune`): compile the prune argv and
launch it. -/
def action_prune (env : ExecEnv) (config : Value) (dry : Bool) : RunM Unit := do
  let toks ← liftE (action_prune_cmds config dry)
  runTool env toks

/-- The loop of app.py lines 160-164 and 171-175: run each declared hook in
order; under dry-run every hook is skipped (only reported); each hook
command must be a string for the shell invocation. -/
def run_hooks_list (env : ExecEnv) (hooks : List Value) (dry : Bool) : RunM Unit :=
  match hooks with
  | [] => pure ()
  | h :: rest =>
    if dry then run_hooks_list env rest dry
    else do
      let hs ← liftE (asStr h)
      run_hook env hs
      run_hooks_list env rest dry

/-- The shared body of `hooks_before` and `hooks_after` (app.py lines
156-164 and 167-175), parameterized by the hook-list key: return
immediately when the hooks section or the list is absent (the membership
test short-circuits exactly as the source's `or` does), otherwise iterate
the declared list. -/
def hooks_run (key : String) (env : ExecEnv) (config : Value) (dry : Bool) : RunM Unit := do
  let h1 ← liftE (contains config ("hooks"))
  if h1 then do
    let hv ← liftE (getItem config ("hooks"))
    let h2 ← liftE (contains hv key)
    if h2 then do
      let hv2 ← liftE (getItem config ("hooks"))
      let lv ← liftE (getItem hv2 key)
      let items ← liftE (pyIter lv)
      run_hooks_list env items dry
    else pure ()
  else pure ()

/-- app.py lines 156-164, `hooks_before`. -/
def hooks_before (env : ExecEnv) (config : Value) (dry : Bool) : RunM Unit :=
  hooks_run ("before") env config dry

/-- app.py lines 167-175, `hooks_after`. -/
def hooks_after (env : ExecEnv) (config : Value) (dry : Bool) : RunM Unit :=
  hooks_run ("after") env config dry

/-- app.py lines 33-38, `CreateAction.execute`: before-hooks, create,
after-hooks, then prune unless `--no-prune` was given. -/
def CreateAction.execute (env : ExecEnv) (config : Value) (dry : Bool)
    (noPrune : Bool) : RunM Unit := do
  hooks_before env config dry
  action_create env config dry
  hooks_after env config dry
  if noPrune then pure () else action_prune env config dry

/-- app.py lines 57-58, `PruneAction.execute`. -/
def PruneAction.execute (env : ExecEnv) (config : Value) (dry : Bool) : RunM Unit :=
  action_prune env config dry

/-- The three monitoring outcomes of app.py lines 139-153 with their
messages reduced to their kind. -/
inductive Verdict where
  | ok : Verdict
  | warnTooOld : Verdict
  | warnTooSmall : Verdict
deriving DecidableEq

/-- The process exit status attached to each verdict (`sys.exit(1)` at
lines 146 and 151, normal termination otherwise). -/
def Verdict.exitCode : Verdict → Nat
  | Verdict.ok => 0
  | _ => 1

/-- app.py lines 139-153, `action_check_age`, applied to the report parsed
from the info invocation's stdout (line 141).  Timestamps are modelled as
integer seconds: `parseTs` stands for `datetime.strptime` with the source's
format (returning none where strptime raises ValueError) and `now` for
`datetime.now()`; only the order comparison of line 144 is consumed.
Mirrors the source's accesses in order: archives[0].start, the age test,
then archives[0].stats.original_size, then the short-circuit
`min_size and size < min_size` (so a None or zero `min_size` skips the
size comparison). -/
def action_check_age (parseTs : String → Option Int) (now : Int) (report : Value)
    (max_age : Int) (min_size : Option Int) : Except PyErr Verdict := do
  let archives ← getItem report ("archives")
  let a0 ← pyIndex archives 0
  let startV ← getItem a0 ("start")
  let startS ← asStr startV
  let backup_start ←
    match parseTs startS with
    | some t => Except.ok t
    | none => Except.error PyErr.valueError
  if now - backup_start > max_age then Except.ok Verdict.warnTooOld
  else do
    let archives2 ← getItem report ("archives")
    let a02 ← pyIndex archives2 0
    let stats ← getItem a02 ("stats")
    let sizeV ← getItem stats ("original_size")
    match min_size with
    | none => Except.ok Verdict.ok
    | some m =>
      if m = 0 then Except.ok Verdict.ok
      else do
        let size ← asInt sizeV
        if size < m then Except.ok Verdict.warnTooSmall else Except.ok Verdict.ok

/-- app.py lines 69-74, `CheckAgeAction.execute`: the unit conversions of
the monitoring entry point (hours to seconds, MiB to bytes, a falsy
`--min-size` becoming None). -/
def CheckAgeAction.execute (parseTs : String → Option Int) (now : Int) (report : Value)
    (maxAgeHours : Int) (minSizeMiB : Option Int) : Except PyErr Verdict :=
  let min_size :=
    match minSizeMiB with
    | some m => if m = 0 then none else some (m * 1024 * 1024)
    | none => none
  action_check_age parseTs now report (maxAgeHours * 3600) min_size

/-- The guarded truthiness the create compiler applies to an optional
config field: an absent field never emits a flag, a present one is coerced
by `config_is_true`. -/
def optTruthy : Option Value → Bool
  | none => false
  | some v => config_is_true v

/-- The create command line exactly as the specification lays it out:
tool, subaction, flags in the fixed order compression, one-file-system,
exclude-caches, exclude-if-present pairs, exclude pairs, dry-run, then the
repository::prefix-template argument and the trailing source paths. -/
def createCmdSpec (repo pfx : String) (comp : Option String) (ofs ec : Bool)
    (eip ex : List String) (dry : Bool) (sources : List String) : List String :=
  ["borgbackup", "create"]
  ++ (match comp with | some c => ["--compression", c] | none => [])
  ++ (if ofs then ["--one-file-system"] else [])
  ++ (if ec then ["--exclude-caches"] else [])
  ++ ((eip.map fun e => ["--exclude-if-present", e]).flatten)
  ++ ((ex.map fun e => ["--exclude", e]).flatten)
  ++ (if dry then ["--dry-run"] else [])
  ++ [repo ++ "::" ++ pfx ++ "-" ++ timestampTemplate]
  ++ sources

/-- A retention flag/value pair of the specification, emitted only when
the key is present. -/
def keepSpec (flag : String) : Option String → List String
  | some v => [flag, v]
  | none => []

/-- The prune command line exactly as the specification lays it out. -/
def pruneCmdSpec (repo pfx : String) (dry : Bool)
    (kl kw kh kd kwe km ky : Option String) : List String :=
  ["borgbackup", "prune", "--stats", "--list", "--prefix", pfx]
  ++ (if dry then ["--dry-run"] else [])
  ++ keepSpec ("--keep-last") kl ++ keepSpec ("--keep-within") kw
  ++ keepSpec ("--keep-hourly") kh ++ keepSpec ("--keep-daily") kd
  ++ keepSpec ("--keep-weekly") kwe ++ keepSpec ("--keep-monthly") km
  ++ keepSpec ("--keep-yearly") ky
  ++ [repo]

/-- The flag/value pair an optional field contributes: nothing when
absent. -/
def optPair (flag : String) : Option Value → List Value
  | some v => [Value.vStr flag, v]
  | none => []

/-- The argument segment the create compiler assembles before handing over
to `run`, as a function of the looked-up optional fields. -/
def valueArgs (comp ofs ec : Option Value) (eip ex : List Value) (dry : Bool) : List Value :=
  optPair ("--compression") comp
  ++ (if optTruthy ofs then [Value.vStr ("--one-file-system")] else [])
  ++ (if optTruthy ec then [Value.vStr ("--exclude-caches")] else [])
  ++ pairFlags ("--exclude-if-present") eip
  ++ pairFlags ("--exclude") ex
  ++ (if dry then [Value.vStr ("--dry-run")] else [])

/-- An execution environment in which every hook and every tool invocation
exits zero. -/
def envOk : ExecEnv := ⟨fun _ => 0, fun _ => 0⟩

/-- Location section of the concrete test policy. -/
def locFull : List (String × Value) :=
  [("source", Value.vList [Value.vStr ("src1"), Value.vStr ("src2")]),
   ("one_file_system", Value.vBool true),
   ("exclude_caches", Value.vStr ("no")),
   ("exclude_if_present", Value.vList [Value.vStr (".nobackup")]),
   ("exclude", Value.vList [Value.vStr ("/tmp/cache")])]

/-- Remote section of the concrete test policy. -/
def remFull : List (String × Value) :=
  [("repository", Value.vStr ("/path/testrepo")),
   ("prefix", Value.vStr ("testprefix")),
   ("compression", Value.vStr ("lz4"))]

/-- Retention section of the concrete test policy; the document order
(daily before last) deliberately differs from the canonical flag order. -/
def retFull : List (String × Value) :=
  [("keep_daily", Value.vStr ("7")), ("keep_last", Value.vStr ("4"))]

/-- Hooks section of the concrete test policy. -/
def hkFull : List (String × Value) :=
  [("before", Value.vList [Value.vStr ("echo before")]),
   ("after", Value.vList [Value.vStr ("echo after")])]

/-- The concrete test policy document. -/
def cfgFullM : List (String × Value) :=
  [("location", Value.vMap locFull), ("remote", Value.vMap remFull),
   ("retention", Value.vMap retFull), ("hooks", Value.vMap hkFull)]

/-- The environment in which exactly the shell command false exits with
status 1. -/
def envHookFail : ExecEnv := ⟨fun h => if h = "false" then 1 else 0, fun _ => 0⟩

/-- Hooks section whose before list is true, false, later. -/
def hkFail : List (String × Value) :=
  [("before", Value.vList [Value.vStr ("true"), Value.vStr ("false"),
    Value.vStr ("later")])]

/-- A full policy whose before-hooks contain the always-failing command. -/
def cfgHookFailM : List (String × Value) :=
  [("location", Value.vMap locFull), ("remote", Value.vMap remFull),
   ("hooks", Value.vMap hkFail)]

/-- The most recent archive of the concrete status report. -/
def a0W : Value :=
  Value.vMap [("start", Value.vStr ("2024-01-01T00:00:00.000000")),
    ("stats", Value.vMap [("original_size", Value.vInt 100)])]

/-- The concrete status report. -/
def rptGood : Value := Value.vMap [("archives", Value.vList [a0W])]

/-- The environment used by the corrected-claim runs: everything exits
zero. -/
def c7env : ExecEnv := ⟨fun _ => 0, fun _ => 0⟩

/-- A configuration whose remote section is missing entirely but which
declares a before-hook. -/
def c7cfgM : List (String × Value) :=
  [("location", Value.vMap [("source", Value.vList [Value.vStr ("data")])]),
   ("hooks", Value.vMap [("before", Value.vList [Value.vStr ("echo hi")])])]

/-- Location section holding the single-string source. -/
def locOnlyS : List (String × Value) := [("source", Value.vStr ("one"))]

/-- Location section holding the singleton-list source. -/
def locOnlyL : List (String × Value) :=
  [("source", Value.vList [Value.vStr ("one")])]

/-- Minimal remote section. -/
def remMin : List (String × Value) :=
  [("repository", Value.vStr ("/r")), ("prefix", Value.vStr ("p"))]

theorem pybind_ok {α β : Type} (a : α) (f : α → Except PyErr β) :
    (Except.ok a >>= f) = f a := rfl

theorem pybind_err {α β : Type} (e : PyErr) (f : α → Except PyErr β) :
    ((Except.error e : Except PyErr α) >>= f) = Except.error e := rfl

theorem pypure_eq {α : Type} (a : α) : (pure a : Except PyErr α) = Except.ok a := rfl

theorem tokenize_map_vStr (l : List String) :
    tokenize (l.map Value.vStr) = Except.ok l := by
  induction l with
  | nil => rfl
  | cons a rest ih => simp [tokenize, asStr, ih, pybind_ok]

theorem pairFlags_map_vStr (f : String) (l : List String) :
    pairFlags f (l.map Value.vStr) = ((l.map fun e => [f, e]).flatten).map Value.vStr := by
  induction l with
  | nil => rfl
  | cons a rest ih => simp [pairFlags] at ih ⊢; simp [ih]

theorem optValueFlag_eval (config : Value) (sec key flag : String)
    (m : List (String × Value)) (o : Option Value)
    (hsec : getItem config sec = Except.ok (Value.vMap m))
    (hk : lookupV m key = o) :
    optValueFlag config sec key flag = Except.ok (optPair flag o) := by
  cases o <;>
    simp only [optValueFlag, hsec, pybind_ok, contains, hk] <;>
    simp [getItem, hsec, hk, optPair, pybind_ok]

theorem truthyFlag_eval (config : Value) (key flag : String)
    (m : List (String × Value)) (o : Option Value)
    (hloc : getItem config ("location") = Except.ok (Value.vMap m))
    (hk : lookupV m key = o) :
    truthyFlag config key flag =
      Except.ok (if optTruthy o then [Value.vStr flag] else []) := by
  cases o <;>
    simp only [truthyFlag, hloc, pybind_ok, contains, hk] <;>
    simp [getItem, hloc, hk, optTruthy, pybind_ok]

theorem iterFlag_eval (config : Value) (key flag : String)
    (m : List (String × Value)) (o : Option (List Value))
    (hloc : getItem config ("location") = Except.ok (Value.vMap m))
    (hk : lookupV m key = Option.map Value.vList o) :
    iterFlag config key flag = Except.ok (pairFlags flag (o.getD [])) := by
  cases o <;>
    simp only [iterFlag, hloc, pybind_ok, contains, hk, Option.map] <;>
    simp [getItem, hloc, hk, pyIter, pairFlags, pybind_ok]

/-- Evaluation of the create compiler down to the `run` stage: the
assembled argument segment is a function of the looked-up field values
only, so any two documents with the same lookups (whatever their key
order) compile identically. -/
theorem action_create_cmds_reduce
    (config : Value) (dry : Bool) (locM remM : List (String × Value)) (srcV : Value)
    (comp ofs ec : Option Value) (eipL exL : Option (List Value))
    (hloc : getItem config ("location") = Except.ok (Value.vMap locM))
    (hrem : getItem config ("remote") = Except.ok (Value.vMap remM))
    (hsrc : lookupV locM ("source") = some srcV)
    (hcomp : lookupV remM ("compression") = comp)
    (hofs : lookupV locM ("one_file_system") = ofs)
    (hec : lookupV locM ("exclude_caches") = ec)
    (heip : lookupV locM ("exclude_if_present") = Option.map Value.vList eipL)
    (hex : lookupV locM ("exclude") = Option.map Value.vList exL) :
    action_create_cmds config dry =
      run_cmds ("create") config true
        (valueArgs comp ofs ec (eipL.getD []) (exL.getD []) dry) (normSource srcV) := by
  simp only [action_create_cmds, hloc, pybind_ok,
    optValueFlag_eval config ("remote") ("compression") ("--compression") remM comp hrem hcomp,
    truthyFlag_eval config ("one_file_system") ("--one-file-system") locM ofs hloc hofs,
    truthyFlag_eval config ("exclude_caches") ("--exclude-caches") locM ec hloc hec,
    iterFlag_eval config ("exclude_if_present") ("--exclude-if-present") locM eipL hloc heip,
    iterFlag_eval config ("exclude") ("--exclude") locM exL hloc hex]
  simp only [getItem, hsrc, pybind_ok, valueArgs]

theorem pairFlags_nil (f : String) : pairFlags f [] = [] := rfl

theorem map_vStr_ite (b : Bool) (l1 l2 : List String) :
    (if b then l1 else l2).map Value.vStr =
      if b then l1.map Value.vStr else l2.map Value.vStr := by
  cases b <;> rfl

theorem run_cmds_archive_eval (act : String) (config : Value)
    (remM : List (String × Value)) (repo pfx : String)
    (args : List Value) (trailing : List Value)
    (hrem : getItem config ("remote") = Except.ok (Value.vMap remM))
    (hrepo : lookupV remM ("repository") = some (Value.vStr repo))
    (hpfx : lookupV remM ("prefix") = some (Value.vStr pfx)) :
    run_cmds act config true args (Value.vList trailing) =
      tokenize (Value.vStr ("borgbackup") :: Value.vStr act ::
        (args ++ [Value.vStr (repo ++ "::" ++ pfx ++ "-" ++ timestampTemplate)] ++ trailing)) := by
  simp only [run_cmds, hrem, pybind_ok]
  simp [getItem, hrem, hrepo, hpfx, asStr, asList, contains, pyStr, pybind_ok]

theorem run_cmds_plain_eval (act : String) (config : Value)
    (remM : List (String × Value)) (repoV : Value)
    (args : List Value) (trailing : List Value)
    (hrem : getItem config ("remote") = Except.ok (Value.vMap remM))
    (hrepo : lookupV remM ("repository") = some repoV) :
    run_cmds act config false args (Value.vList trailing) =
      tokenize (Value.vStr ("borgbackup") :: Value.vStr act ::
        (args ++ [repoV] ++ trailing)) := by
  simp only [run_cmds, hrem, pybind_ok]
  simp [getItem, hrem, hrepo, asList, contains, pybind_ok]

/-- Full evaluation of the create compiler: the compiled create command is
the tool name, the subaction create, the optional flags in the fixed order
compression, one-file-system, exclude-caches, exclude-if-present pairs,
exclude pairs, dry-run, then the repository::prefix-timestamp-template
argument, then the source paths — however the configuration document
orders its keys, since only the key lookups below enter the result. -/
theorem create_cmds_full_eval
    (config : Value) (dry : Bool) (locM remM : List (String × Value))
    (repo pfx : String) (comp : Option String) (ofs ec : Option Value)
    (eip ex : Option (List String)) (sources : List String)
    (hloc : getItem config ("location") = Except.ok (Value.vMap locM))
    (hrem : getItem config ("remote") = Except.ok (Value.vMap remM))
    (hsrc : lookupV locM ("source") = some (Value.vList (sources.map Value.vStr)))
    (hrepo : lookupV remM ("repository") = some (Value.vStr repo))
    (hpfx : lookupV remM ("prefix") = some (Value.vStr pfx))
    (hcomp : lookupV remM ("compression") = comp.map Value.vStr)
    (hofs : lookupV locM ("one_file_system") = ofs)
    (hec : lookupV locM ("exclude_caches") = ec)
    (heip : lookupV locM ("exclude_if_present") =
      eip.map fun l => Value.vList (l.map Value.vStr))
    (hex : lookupV locM ("exclude") = ex.map fun l => Value.vList (l.map Value.vStr)) :
    action_create_cmds config dry =
      Except.ok (createCmdSpec repo pfx comp (optTruthy ofs) (optTruthy ec)
        (eip.getD []) (ex.getD []) dry sources) := by
  have heip2 : lookupV locM ("exclude_if_present") =
      Option.map Value.vList (eip.map fun l => l.map Value.vStr) := by
    rw [heip]; cases eip <;> rfl
  have hex2 : lookupV locM ("exclude") =
      Option.map Value.vList (ex.map fun l => l.map Value.vStr) := by
    rw [hex]; cases ex <;> rfl
  rw [action_create_cmds_reduce config dry locM remM (Value.vList (sources.map Value.vStr))
    (comp.map Value.vStr) ofs ec (eip.map fun l => l.map Value.vStr)
    (ex.map fun l => l.map Value.vStr) hloc hrem hsrc hcomp hofs hec heip2 hex2]
  rw [show normSource (Value.vList (sources.map Value.vStr))
    = Value.vList (sources.map Value.vStr) from rfl]
  rw [run_cmds_archive_eval ("create") config remM repo pfx _ _ hrem hrepo hpfx]
  have hlist : Value.vStr ("borgbackup") :: Value.vStr ("create") ::
      (valueArgs (comp.map Value.vStr) ofs ec
        ((eip.map fun l => l.map Value.vStr).getD [])
        ((ex.map fun l => l.map Value.vStr).getD []) dry
       ++ [Value.vStr (repo ++ "::" ++ pfx ++ "-" ++ timestampTemplate)]
       ++ sources.map Value.vStr) =
      (createCmdSpec repo pfx comp (optTruthy ofs) (optTruthy ec)
        (eip.getD []) (ex.getD []) dry sources).map Value.vStr := by
    cases comp <;> cases eip <;> cases ex <;>
      simp [valueArgs, createCmdSpec, optPair, pairFlags_map_vStr, pairFlags_nil,
        map_vStr_ite, List.map_append]
  rw [hlist]
  exact tokenize_map_vStr _

theorem keepFlag_eval (config : Value) (key flag : String)
    (m : List (String × Value)) (o : Option Value)
    (hret : getItem config ("retention") = Except.ok (Value.vMap m))
    (hk : lookupV m key = o) :
    keepFlag config key flag =
      Except.ok ((keepSpec flag (o.map pyStr)).map Value.vStr) := by
  cases o <;>
    simp only [keepFlag, hret, pybind_ok, contains, hk] <;>
    simp [getItem, hret, hk, keepSpec, pybind_ok]

/-- Full evaluation of the prune compiler: the compiled prune command is
the tool name, the subaction prune, always the stats/list/prefix block
first, then dry-run exactly when requested, then one keep flag/value pair
per retention key present — in the fixed canonical order, independent of
the document's key order since only the lookups below enter the result —
and finally the bare repository argument with no archive suffix
appended. -/
theorem prune_cmds_full_eval
    (config : Value) (dry : Bool) (remM retM : List (String × Value))
    (repo pfx : String) (kl kw kh kd kwe km ky : Option Value)
    (hrem : getItem config ("remote") = Except.ok (Value.vMap remM))
    (hret : getItem config ("retention") = Except.ok (Value.vMap retM))
    (hrepo : lookupV remM ("repository") = some (Value.vStr repo))
    (hpfx : lookupV remM ("prefix") = some (Value.vStr pfx))
    (hkl : lookupV retM ("keep_last") = kl)
    (hkw : lookupV retM ("keep_within") = kw)
    (hkh : lookupV retM ("keep_hourly") = kh)
    (hkd : lookupV retM ("keep_daily") = kd)
    (hkwe : lookupV retM ("keep_weekly") = kwe)
    (hkm : lookupV retM ("keep_monthly") = km)
    (hky : lookupV retM ("keep_yearly") = ky) :
    action_prune_cmds config dry =
      Except.ok (pruneCmdSpec repo pfx dry (kl.map pyStr) (kw.map pyStr)
        (kh.map pyStr) (kd.map pyStr) (kwe.map pyStr) (km.map pyStr)
        (ky.map pyStr)) := by
  simp only [action_prune_cmds, hrem, pybind_ok]
  simp only [getItem, hpfx, pybind_ok,
    keepFlag_eval config ("keep_last") ("--keep-last") retM kl hret hkl,
    keepFlag_eval config ("keep_within") ("--keep-within") retM kw hret hkw,
    keepFlag_eval config ("keep_hourly") ("--keep-hourly") retM kh hret hkh,
    keepFlag_eval config ("keep_daily") ("--keep-daily") retM kd hret hkd,
    keepFlag_eval config ("keep_weekly") ("--keep-weekly") retM kwe hret hkwe,
    keepFlag_eval config ("keep_monthly") ("--keep-monthly") retM km hret hkm,
    keepFlag_eval config ("keep_yearly") ("--keep-yearly") retM ky hret hky]
  rw [run_cmds_plain_eval ("prune") config remM (Value.vStr repo) _ _ hrem hrepo]
  have hlist : Value.vStr ("borgbackup") :: Value.vStr ("prune") ::
      ([Value.vStr ("--stats"), Value.vStr ("--list"), Value.vStr ("--prefix"),
          Value.vStr pfx]
        ++ (if dry then [Value.vStr ("--dry-run")] else [])
        ++ (keepSpec ("--keep-last") (kl.map pyStr)).map Value.vStr
        ++ (keepSpec ("--keep-within") (kw.map pyStr)).map Value.vStr
        ++ (keepSpec ("--keep-hourly") (kh.map pyStr)).map Value.vStr
        ++ (keepSpec ("--keep-daily") (kd.map pyStr)).map Value.vStr
        ++ (keepSpec ("--keep-weekly") (kwe.map pyStr)).map Value.vStr
        ++ (keepSpec ("--keep-monthly") (km.map pyStr)).map Value.vStr
        ++ (keepSpec ("--keep-yearly") (ky.map pyStr)).map Value.vStr
        ++ [Value.vStr repo] ++ []) =
      (pruneCmdSpec repo pfx dry (kl.map pyStr) (kw.map pyStr) (kh.map pyStr)
        (kd.map pyStr) (kwe.map pyStr) (km.map pyStr) (ky.map pyStr)).map
        Value.vStr := by
    simp [pruneCmdSpec, List.map_append, map_vStr_ite]
  rw [hlist]
  exact tokenize_map_vStr _

theorem run_cmds_congr (act : String) (config config2 : Value) (archive : Bool)
    (args : List Value) (trailing : Value)
    (hrem : getItem config ("remote") = getItem config2 ("remote")) :
    run_cmds act config archive args trailing =
      run_cmds act config2 archive args trailing := by
  simp only [run_cmds, hrem]

theorem runm_pure_eval {α : Type} (a : α) (t : List Event) :
    (pure a : RunM α) t = ⟨Except.ok a, t⟩ := rfl

theorem liftE_eval {α : Type} (e : Except PyErr α) (t : List Event) :
    liftE e t = ⟨e, t⟩ := rfl

theorem runm_bind_ok {α β : Type} (x : RunM α) (f : α → RunM β)
    (t t2 : List Event) (a : α) (hx : x t = ⟨Except.ok a, t2⟩) :
    (x >>= f) t = f a t2 := by
  show (match x t with
    | ⟨Except.ok a, t2⟩ => f a t2
    | ⟨Except.error e, t2⟩ => ⟨Except.error e, t2⟩) = f a t2
  rw [hx]

theorem runm_bind_err {α β : Type} (x : RunM α) (f : α → RunM β)
    (t t2 : List Event) (e : PyErr) (hx : x t = ⟨Except.error e, t2⟩) :
    (x >>= f) t = ⟨Except.error e, t2⟩ := by
  show (match x t with
    | ⟨Except.ok a, t2⟩ => f a t2
    | ⟨Except.error e, t2⟩ => ⟨Except.error e, t2⟩) = _
  rw [hx]

theorem action_create_eval_ok (env : ExecEnv) (config : Value) (dry : Bool)
    (toks : List String) (t : List Event)
    (hc : action_create_cmds config dry = Except.ok toks) :
    action_create env config dry t =
      ⟨if env.toolExit toks = 0 then Except.ok ()
        else Except.error (PyErr.calledProcessError (env.toolExit toks)),
       t ++ [Event.toolRun toks]⟩ := by
  show (liftE (action_create_cmds config dry) >>= fun toks => runTool env toks) t = _
  rw [runm_bind_ok _ _ t t toks (by rw [liftE_eval, hc])]
  rfl

theorem action_create_eval_err (env : ExecEnv) (config : Value) (dry : Bool)
    (e : PyErr) (t : List Event)
    (hc : action_create_cmds config dry = Except.error e) :
    action_create env config dry t = ⟨Except.error e, t⟩ := by
  show (liftE (action_create_cmds config dry) >>= fun toks => runTool env toks) t = _
  rw [runm_bind_err _ _ t t e (by rw [liftE_eval, hc])]

theorem action_prune_eval_ok (env : ExecEnv) (config : Value) (dry : Bool)
    (toks : List String) (t : List Event)
    (hc : action_prune_cmds config dry = Except.ok toks) :
    action_prune env config dry t =
      ⟨if env.toolExit toks = 0 then Except.ok ()
        else Except.error (PyErr.calledProcessError (env.toolExit toks)),
       t ++ [Event.toolRun toks]⟩ := by
  show (liftE (action_prune_cmds config dry) >>= fun toks => runTool env toks) t = _
  rw [runm_bind_ok _ _ t t toks (by rw [liftE_eval, hc])]
  rfl

theorem action_prune_eval_err (env : ExecEnv) (config : Value) (dry : Bool)
    (e : PyErr) (t : List Event)
    (hc : action_prune_cmds config dry = Except.error e) :
    action_prune env config dry t = ⟨Except.error e, t⟩ := by
  show (liftE (action_prune_cmds config dry) >>= fun toks => runTool env toks) t = _
  rw [runm_bind_err _ _ t t e (by rw [liftE_eval, hc])]

theorem runm_bind_liftE_ok {α β : Type} (e : Except PyErr α) (a : α)
    (f : α → RunM β) (t : List Event) (he : e = Except.ok a) :
    (liftE e >>= f) t = f a t :=
  runm_bind_ok _ _ t t a (by rw [liftE_eval, he])

theorem runm_bind_liftE_err {α β : Type} (e : Except PyErr α) (err : PyErr)
    (f : α → RunM β) (t : List Event) (he : e = Except.error err) :
    (liftE e >>= f) t = ⟨Except.error err, t⟩ :=
  runm_bind_err _ _ t t err (by rw [liftE_eval, he])

theorem run_hooks_nil (env : ExecEnv) (dry : Bool) :
    run_hooks_list env [] dry = pure () := rfl

theorem run_hooks_cons (env : ExecEnv) (a : Value) (rest : List Value) :
    run_hooks_list env (a :: rest) false =
      (liftE (asStr a) >>= fun hs =>
        run_hook env hs >>= fun _ => run_hooks_list env rest false) := rfl

theorem run_hooks_cons_dry (env : ExecEnv) (a : Value) (rest : List Value) :
    run_hooks_list env (a :: rest) true = run_hooks_list env rest true := rfl

theorem run_hook_ok (env : ExecEnv) (s : String) (t : List Event)
    (hz : env.hookExit s = 0) :
    run_hook env s t = ⟨Except.ok (), t ++ [Event.hookRun s]⟩ := by
  simp [run_hook, hz]

theorem run_hook_fail (env : ExecEnv) (s : String) (t : List Event)
    (hz : ¬ env.hookExit s = 0) :
    run_hook env s t =
      ⟨Except.error (PyErr.calledProcessError (env.hookExit s)),
       t ++ [Event.hookRun s]⟩ := by
  simp [run_hook, hz]

/-- A list of string hooks that all exit zero runs to completion, launching
each hook in declaration order. -/
theorem run_hooks_list_ok (env : ExecEnv) (hs : List String) (t : List Event)
    (hall : ∀ h ∈ hs, env.hookExit h = 0) :
    run_hooks_list env (hs.map Value.vStr) false t =
      ⟨Except.ok (), t ++ hs.map Event.hookRun⟩ := by
  induction hs generalizing t with
  | nil => simp [run_hooks_nil, runm_pure_eval]
  | cons a rest ih =>
    have ha : env.hookExit a = 0 := hall a (List.mem_cons_self a rest)
    have hrest : ∀ h ∈ rest, env.hookExit h = 0 :=
      fun h hm => hall h (List.mem_cons_of_mem a hm)
    rw [List.map_cons, run_hooks_cons]
    rw [runm_bind_liftE_ok (asStr (Value.vStr a)) a _ t rfl]
    rw [runm_bind_ok _ _ t (t ++ [Event.hookRun a]) () (run_hook_ok env a t ha)]
    rw [ih _ hrest]
    simp

/-- A failing hook aborts the list right after its own launch: the hooks
before it have run, the failing hook has run, nothing after it runs, and
the CalledProcessError carries the failing hook's exit status. -/
theorem run_hooks_list_fail (env : ExecEnv) (pre : List String) (h : String)
    (rest : List Value) (t : List Event)
    (hpre : ∀ x ∈ pre, env.hookExit x = 0) (hh : ¬ env.hookExit h = 0) :
    run_hooks_list env (pre.map Value.vStr ++ Value.vStr h :: rest) false t =
      ⟨Except.error (PyErr.calledProcessError (env.hookExit h)),
       t ++ pre.map Event.hookRun ++ [Event.hookRun h]⟩ := by
  induction pre generalizing t with
  | nil =>
    rw [List.map_nil, List.nil_append, run_hooks_cons]
    rw [runm_bind_liftE_ok (asStr (Value.vStr h)) h _ t rfl]
    rw [runm_bind_err _ _ t (t ++ [Event.hookRun h]) _ (run_hook_fail env h t hh)]
    simp
  | cons a pr ih =>
    have ha : env.hookExit a = 0 := hpre a (List.mem_cons_self a pr)
    have hpr : ∀ x ∈ pr, env.hookExit x = 0 :=
      fun x hm => hpre x (List.mem_cons_of_mem a hm)
    rw [List.map_cons, List.cons_append, run_hooks_cons]
    rw [runm_bind_liftE_ok (asStr (Value.vStr a)) a _ t rfl]
    rw [runm_bind_ok _ _ t (t ++ [Event.hookRun a]) () (run_hook_ok env a t ha)]
    rw [ih _ hpr]
    simp

/-- Whatever the hook list holds, running it only ever launches hook
processes (never the external tool), extending the trace. -/
theorem run_hooks_list_result (env : ExecEnv) (items : List Value) (dry : Bool)
    (t : List Event) :
    ∃ evs r, run_hooks_list env items dry t = ⟨r, t ++ evs⟩ ∧
      ∀ x ∈ evs, ∃ s, x = Event.hookRun s := by
  induction items generalizing t with
  | nil => exact ⟨[], Except.ok (), by simp [run_hooks_nil, runm_pure_eval], by simp⟩
  | cons a rest ih =>
    cases dry with
    | true =>
      obtain ⟨evs, r, heq, hall⟩ := ih t
      exact ⟨evs, r, by rw [run_hooks_cons_dry]; exact heq, hall⟩
    | false =>
      rcases ha : asStr a with e | s
      · refine ⟨[], Except.error e, ?_, by simp⟩
        rw [run_hooks_cons, runm_bind_liftE_err (asStr a) e _ t ha]
        simp
      · by_cases hz : env.hookExit s = 0
        · obtain ⟨evs, r, heq, hall⟩ := ih (t ++ [Event.hookRun s])
          refine ⟨Event.hookRun s :: evs, r, ?_, ?_⟩
          · rw [run_hooks_cons, runm_bind_liftE_ok (asStr a) s _ t ha,
              runm_bind_ok _ _ t (t ++ [Event.hookRun s]) () (run_hook_ok env s t hz),
              heq]
            simp
          · intro x hx
            rcases List.mem_cons.mp hx with hx1 | hx2
            · exact ⟨s, hx1⟩
            · exact hall x hx2
        · refine ⟨[Event.hookRun s],
            Except.error (PyErr.calledProcessError (env.hookExit s)), ?_, ?_⟩
          · rw [run_hooks_cons, runm_bind_liftE_ok (asStr a) s _ t ha,
              runm_bind_err _ _ t (t ++ [Event.hookRun s]) _ (run_hook_fail env s t hz)]
          · intro x hx
            simp at hx
            exact ⟨s, hx⟩

/-- With a hooks section that declares the requested list, the hook runner
reduces to running exactly that list. -/
theorem hooks_run_present (key : String) (env : ExecEnv)
    (cfgM hkM : List (String × Value)) (items : List Value) (dry : Bool)
    (t : List Event)
    (hh : lookupV cfgM ("hooks") = some (Value.vMap hkM))
    (hk : lookupV hkM key = some (Value.vList items)) :
    hooks_run key env (Value.vMap cfgM) dry t = run_hooks_list env items dry t := by
  simp only [hooks_run]
  rw [runm_bind_liftE_ok (contains (Value.vMap cfgM) ("hooks")) true _ t
    (by simp [contains, hh])]
  try simp only [reduceIte]
  rw [runm_bind_liftE_ok (getItem (Value.vMap cfgM) ("hooks")) (Value.vMap hkM) _ t
    (by simp [getItem, hh])]
  rw [runm_bind_liftE_ok (contains (Value.vMap hkM) key) true _ t
    (by simp [contains, hk])]
  try simp only [reduceIte]
  rw [runm_bind_liftE_ok (getItem (Value.vMap cfgM) ("hooks")) (Value.vMap hkM) _ t
    (by simp [getItem, hh])]
  rw [runm_bind_liftE_ok (getItem (Value.vMap hkM) key) (Value.vList items) _ t
    (by simp [getItem, hk])]
  rw [runm_bind_liftE_ok (pyIter (Value.vList items)) items _ t (by simp [pyIter])]

/-- With no hooks section, the hook runner is a no-op. -/
theorem hooks_run_absent (key : String) (env : ExecEnv)
    (cfgM : List (String × Value)) (dry : Bool) (t : List Event)
    (hh : lookupV cfgM ("hooks") = none) :
    hooks_run key env (Value.vMap cfgM) dry t = ⟨Except.ok (), t⟩ := by
  simp only [hooks_run]
  rw [runm_bind_liftE_ok (contains (Value.vMap cfgM) ("hooks")) false _ t
    (by simp [contains, hh])]
  try simp only [reduceIte]
  rfl

/-- Whatever the configuration holds, the hook runner only ever launches
hook processes, never the external tool. -/
theorem hooks_run_result (key : String) (env : ExecEnv) (config : Value)
    (dry : Bool) (t : List Event) :
    ∃ evs r, hooks_run key env config dry t = ⟨r, t ++ evs⟩ ∧
      ∀ x ∈ evs, ∃ s, x = Event.hookRun s := by
  simp only [hooks_run]
  rcases h1 : contains config ("hooks") with e | b
  · exact ⟨[], Except.error e,
      by rw [runm_bind_liftE_err (Except.error e) e _ t rfl]; simp, by simp⟩
  rw [runm_bind_liftE_ok (Except.ok b) b _ t rfl]
  cases b with
  | false =>
    refine ⟨[], Except.ok (), ?_, by simp⟩
    try simp only [reduceIte]
    simp [runm_pure_eval]
  | true =>
    try simp only [reduceIte]
    rcases h2 : getItem config ("hooks") with e | hv
    · exact ⟨[], Except.error e,
        by rw [runm_bind_liftE_err (Except.error e) e _ t rfl]; simp, by simp⟩
    rw [runm_bind_liftE_ok (Except.ok hv) hv _ t rfl]
    rcases h3 : contains hv key with e | b2
    · exact ⟨[], Except.error e,
        by rw [runm_bind_liftE_err (Except.error e) e _ t rfl]; simp, by simp⟩
    rw [runm_bind_liftE_ok (Except.ok b2) b2 _ t rfl]
    cases b2 with
    | false =>
      refine ⟨[], Except.ok (), ?_, by simp⟩
      try simp only [reduceIte]
      simp [runm_pure_eval]
    | true =>
      try simp only [reduceIte]
      rw [runm_bind_liftE_ok (Except.ok hv) hv _ t rfl]
      rcases h4 : getItem hv key with e | lv
      · exact ⟨[], Except.error e,
          by rw [runm_bind_liftE_err (Except.error e) e _ t rfl]; simp, by simp⟩
      rw [runm_bind_liftE_ok (Except.ok lv) lv _ t rfl]
      rcases h5 : pyIter lv with e | items
      · exact ⟨[], Except.error e,
          by rw [runm_bind_liftE_err (Except.error e) e _ t rfl]; simp, by simp⟩
      rw [runm_bind_liftE_ok (Except.ok items) items _ t rfl]
      exact run_hooks_list_result env items dry t

theorem createAction_unfold (env : ExecEnv) (config : Value) (dry noPrune : Bool) :
    CreateAction.execute env config dry noPrune =
      (hooks_before env config dry >>= fun _ =>
        action_create env config dry >>= fun _ =>
          hooks_after env config dry >>= fun _ =>
            if noPrune then pure () else action_prune env config dry) := rfl

/-- Full evaluation of the create action on a well-formed policy whose
before-hooks, after-hooks and create invocation all succeed: the launched
processes are exactly the before-hooks in declaration order, one create
invocation, the after-hooks in declaration order, and one prune invocation
unless no-prune was requested. -/
theorem create_sequence_eval
    (env : ExecEnv) (noPrune : Bool) (t : List Event)
    (cfgM locM remM retM hkM : List (String × Value))
    (repo pfx : String) (comp : Option String) (ofs ec : Option Value)
    (eip ex : Option (List String)) (sources : List String)
    (kl kw kh kd kwe km ky : Option Value) (bs as : List String)
    (hlocL : lookupV cfgM ("location") = some (Value.vMap locM))
    (hremL : lookupV cfgM ("remote") = some (Value.vMap remM))
    (hretL : lookupV cfgM ("retention") = some (Value.vMap retM))
    (hhk : lookupV cfgM ("hooks") = some (Value.vMap hkM))
    (hbs : lookupV hkM ("before") = some (Value.vList (bs.map Value.vStr)))
    (has : lookupV hkM ("after") = some (Value.vList (as.map Value.vStr)))
    (hsrc : lookupV locM ("source") = some (Value.vList (sources.map Value.vStr)))
    (hrepo : lookupV remM ("repository") = some (Value.vStr repo))
    (hpfx : lookupV remM ("prefix") = some (Value.vStr pfx))
    (hcomp : lookupV remM ("compression") = comp.map Value.vStr)
    (hofs : lookupV locM ("one_file_system") = ofs)
    (hec : lookupV locM ("exclude_caches") = ec)
    (heip : lookupV locM ("exclude_if_present") =
      eip.map fun l => Value.vList (l.map Value.vStr))
    (hex : lookupV locM ("exclude") = ex.map fun l => Value.vList (l.map Value.vStr))
    (hkl : lookupV retM ("keep_last") = kl)
    (hkw : lookupV retM ("keep_within") = kw)
    (hkh : lookupV retM ("keep_hourly") = kh)
    (hkd : lookupV retM ("keep_daily") = kd)
    (hkwe : lookupV retM ("keep_weekly") = kwe)
    (hkm : lookupV retM ("keep_monthly") = km)
    (hky : lookupV retM ("keep_yearly") = ky)
    (hbz : ∀ h ∈ bs, env.hookExit h = 0)
    (haz : ∀ h ∈ as, env.hookExit h = 0)
    (hcz : env.toolExit (createCmdSpec repo pfx comp (optTruthy ofs) (optTruthy ec)
      (eip.getD []) (ex.getD []) false sources) = 0) :
    (CreateAction.execute env (Value.vMap cfgM) false noPrune t).trace =
      t ++ bs.map Event.hookRun
        ++ [Event.toolRun (createCmdSpec repo pfx comp (optTruthy ofs) (optTruthy ec)
              (eip.getD []) (ex.getD []) false sources)]
        ++ as.map Event.hookRun
        ++ (if noPrune then []
            else [Event.toolRun (pruneCmdSpec repo pfx false (kl.map pyStr)
              (kw.map pyStr) (kh.map pyStr) (kd.map pyStr) (kwe.map pyStr)
              (km.map pyStr) (ky.map pyStr))]) := by
  have hloc : getItem (Value.vMap cfgM) ("location") = Except.ok (Value.vMap locM) := by
    simp [getItem, hlocL]
  have hrem : getItem (Value.vMap cfgM) ("remote") = Except.ok (Value.vMap remM) := by
    simp [getItem, hremL]
  have hret : getItem (Value.vMap cfgM) ("retention") = Except.ok (Value.vMap retM) := by
    simp [getItem, hretL]
  have hcreate := create_cmds_full_eval (Value.vMap cfgM) false locM remM repo pfx
    comp ofs ec eip ex sources hloc hrem hsrc hrepo hpfx hcomp hofs hec heip hex
  have hprune := prune_cmds_full_eval (Value.vMap cfgM) false remM retM repo pfx
    kl kw kh kd kwe km ky hrem hret hrepo hpfx hkl hkw hkh hkd hkwe hkm hky
  set ccmd := createCmdSpec repo pfx comp (optTruthy ofs) (optTruthy ec)
    (eip.getD []) (ex.getD []) false sources with hccmd
  set pcmd := pruneCmdSpec repo pfx false (kl.map pyStr) (kw.map pyStr) (kh.map pyStr)
    (kd.map pyStr) (kwe.map pyStr) (km.map pyStr) (ky.map pyStr) with hpcmd
  have h1 : hooks_before env (Value.vMap cfgM) false t =
      ⟨Except.ok (), t ++ bs.map Event.hookRun⟩ := by
    show hooks_run ("before") env (Value.vMap cfgM) false t = _
    rw [hooks_run_present ("before") env cfgM hkM (bs.map Value.vStr) false t hhk hbs]
    exact run_hooks_list_ok env bs t hbz
  have h2 : action_create env (Value.vMap cfgM) false (t ++ bs.map Event.hookRun) =
      ⟨Except.ok (), t ++ bs.map Event.hookRun ++ [Event.toolRun ccmd]⟩ := by
    rw [action_create_eval_ok env (Value.vMap cfgM) false ccmd _ hcreate]
    simp [hcz]
  have h3 : hooks_after env (Value.vMap cfgM) false
      (t ++ bs.map Event.hookRun ++ [Event.toolRun ccmd]) =
      ⟨Except.ok (), t ++ bs.map Event.hookRun ++ [Event.toolRun ccmd]
        ++ as.map Event.hookRun⟩ := by
    show hooks_run ("after") env (Value.vMap cfgM) false _ = _
    rw [hooks_run_present ("after") env cfgM hkM (as.map Value.vStr) false _ hhk has]
    exact run_hooks_list_ok env as _ haz
  rw [createAction_unfold]
  rw [runm_bind_ok _ _ t (t ++ bs.map Event.hookRun) () h1]
  rw [runm_bind_ok _ _ _ (t ++ bs.map Event.hookRun ++ [Event.toolRun ccmd]) () h2]
  rw [runm_bind_ok _ _ _ (t ++ bs.map Event.hookRun ++ [Event.toolRun ccmd]
    ++ as.map Event.hookRun) () h3]
  cases noPrune with
  | true => simp [runm_pure_eval]
  | false =>
    rw [if_neg (by simp)]
    rw [action_prune_eval_ok env (Value.vMap cfgM) false pcmd _ hprune]
    simp

/-- A failing before-hook aborts the create action at that hook: the hooks
before it have run, nothing else runs (no create, no after-hooks, no
prune), and the error carries the failing hook's exit status. -/
theorem hook_failure_eval (env : ExecEnv) (noPrune : Bool) (t : List Event)
    (cfgM hkM : List (String × Value)) (pre : List String) (h : String)
    (rest : List Value)
    (hhk : lookupV cfgM ("hooks") = some (Value.vMap hkM))
    (hbs : lookupV hkM ("before") =
      some (Value.vList (pre.map Value.vStr ++ Value.vStr h :: rest)))
    (hpre : ∀ x ∈ pre, env.hookExit x = 0)
    (hh : ¬ env.hookExit h = 0) :
    CreateAction.execute env (Value.vMap cfgM) false noPrune t =
      ⟨Except.error (PyErr.calledProcessError (env.hookExit h)),
       t ++ pre.map Event.hookRun ++ [Event.hookRun h]⟩ := by
  have h1 : hooks_before env (Value.vMap cfgM) false t =
      ⟨Except.error (PyErr.calledProcessError (env.hookExit h)),
       t ++ pre.map Event.hookRun ++ [Event.hookRun h]⟩ := by
    show hooks_run ("before") env (Value.vMap cfgM) false t = _
    rw [hooks_run_present ("before") env cfgM hkM
      (pre.map Value.vStr ++ Value.vStr h :: rest) false t hhk hbs]
    exact run_hooks_list_fail env pre h rest t hpre hh
  rw [createAction_unfold]
  exact runm_bind_err _ _ t _ _ h1

/-- The create compiler reads location.source before anything else: a
location section without a source entry fails with the key-lookup error
for source, before any process is launched. -/
theorem create_missing_source_eval (env : ExecEnv) (config : Value) (dry : Bool)
    (t : List Event) (locM : List (String × Value))
    (hloc : getItem config ("location") = Except.ok (Value.vMap locM))
    (hsrc : lookupV locM ("source") = none) :
    action_create env config dry t =
      ⟨Except.error (PyErr.keyError ("source")), t⟩ := by
  apply action_create_eval_err
  simp only [action_create_cmds, hloc, pybind_ok]
  simp [getItem, hsrc, pybind_err]

/-- The prune compiler reads the retention section unconditionally: a
configuration without one fails with the key-lookup error for retention,
before any process is launched. -/
theorem prune_missing_retention_eval (env : ExecEnv) (dry : Bool)
    (t : List Event) (cfgM remM : List (String × Value)) (pfxV : Value)
    (hremL : lookupV cfgM ("remote") = some (Value.vMap remM))
    (hpfx : lookupV remM ("prefix") = some pfxV)
    (hret : lookupV cfgM ("retention") = none) :
    action_prune env (Value.vMap cfgM) dry t =
      ⟨Except.error (PyErr.keyError ("retention")), t⟩ := by
  apply action_prune_eval_err
  simp only [action_prune_cmds]
  simp [getItem, hremL, hpfx, keepFlag, hret, pybind_ok, pybind_err]

theorem run_cmds_err_remote (act : String) (config : Value) (archive : Bool)
    (args : List Value) (trailing : Value) (e : PyErr)
    (h : getItem config ("remote") = Except.error e) :
    run_cmds act config archive args trailing = Except.error e := by
  simp [run_cmds, h, pybind_err]

theorem run_cmds_err_repo (act : String) (config : Value) (archive : Bool)
    (args : List Value) (trailing : Value) (remM : List (String × Value))
    (hrem : getItem config ("remote") = Except.ok (Value.vMap remM))
    (hrepo : lookupV remM ("repository") = none) :
    run_cmds act config archive args trailing =
      Except.error (PyErr.keyError ("repository")) := by
  simp only [run_cmds, hrem, pybind_ok]
  simp [getItem, hrepo, pybind_err]

theorem run_cmds_err_pfx_archive (act : String) (config : Value)
    (args : List Value) (trailing : Value) (remM : List (String × Value))
    (repoV : Value)
    (hrem : getItem config ("remote") = Except.ok (Value.vMap remM))
    (hrepo : lookupV remM ("repository") = some repoV)
    (hpfx : lookupV remM ("prefix") = none) :
    ∃ e, run_cmds act config true args trailing = Except.error e := by
  rcases hs : asStr repoV with e | s
  · refine ⟨e, ?_⟩
    simp only [run_cmds, hrem, pybind_ok]
    simp [getItem, hrepo, hs, pybind_ok, pybind_err]
  · refine ⟨PyErr.keyError ("prefix"), ?_⟩
    simp only [run_cmds, hrem, pybind_ok]
    simp [getItem, hrepo, hpfx, hs, pybind_ok, pybind_err]

/-- If the final `run` stage always fails for the create action, the whole
create compiler fails, whatever the rest of the configuration holds. -/
theorem action_create_cmds_err (config : Value) (dry : Bool)
    (hrun : ∀ args src, ∃ e,
      run_cmds ("create") config true args src = Except.error e) :
    ∃ e, action_create_cmds config dry = Except.error e := by
  simp only [action_create_cmds]
  rcases h1 : getItem config ("location") with e1 | loc
  · exact ⟨e1, by rw [pybind_err]⟩
  rw [pybind_ok]
  rcases h2 : getItem loc ("source") with e2 | src
  · exact ⟨e2, by rw [pybind_err]⟩
  rw [pybind_ok]
  rcases h3 : optValueFlag config ("remote") ("compression") ("--compression")
      with e3 | p3
  · exact ⟨e3, by rw [pybind_err]⟩
  rw [pybind_ok]
  rcases h4 : truthyFlag config ("one_file_system") ("--one-file-system") with e4 | p4
  · exact ⟨e4, by rw [pybind_err]⟩
  rw [pybind_ok]
  rcases h5 : truthyFlag config ("exclude_caches") ("--exclude-caches") with e5 | p5
  · exact ⟨e5, by rw [pybind_err]⟩
  rw [pybind_ok]
  rcases h6 : iterFlag config ("exclude_if_present") ("--exclude-if-present")
      with e6 | p6
  · exact ⟨e6, by rw [pybind_err]⟩
  rw [pybind_ok]
  rcases h7 : iterFlag config ("exclude") ("--exclude") with e7 | p7
  · exact ⟨e7, by rw [pybind_err]⟩
  rw [pybind_ok]
  exact hrun _ _

theorem action_prune_cmds_err_remote (config : Value) (dry : Bool) (e : PyErr)
    (h : getItem config ("remote") = Except.error e) :
    action_prune_cmds config dry = Except.error e := by
  simp [action_prune_cmds, h, pybind_err]

theorem action_prune_cmds_err_pfx (config : Value) (dry : Bool) (rv : Value)
    (e : PyErr)
    (hrem : getItem config ("remote") = Except.ok rv)
    (hpfx : getItem rv ("prefix") = Except.error e) :
    action_prune_cmds config dry = Except.error e := by
  simp [action_prune_cmds, hrem, hpfx, pybind_ok, pybind_err]

/-- If the final `run` stage always fails for the prune action, the whole
prune compiler fails once the prefix lookup has succeeded. -/
theorem action_prune_cmds_err_run (config : Value) (dry : Bool) (rv pv : Value)
    (hrem : getItem config ("remote") = Except.ok rv)
    (hpfx : getItem rv ("prefix") = Except.ok pv)
    (hrun : ∀ args, ∃ e,
      run_cmds ("prune") config false args (Value.vList []) = Except.error e) :
    ∃ e, action_prune_cmds config dry = Except.error e := by
  simp only [action_prune_cmds, hrem, hpfx, pybind_ok]
  rcases h1 : keepFlag config ("keep_last") ("--keep-last") with e1 | p1
  · exact ⟨e1, by rw [pybind_err]⟩
  rw [pybind_ok]
  rcases h2 : keepFlag config ("keep_within") ("--keep-within") with e2 | p2
  · exact ⟨e2, by rw [pybind_err]⟩
  rw [pybind_ok]
  rcases h3 : keepFlag config ("keep_hourly") ("--keep-hourly") with e3 | p3
  · exact ⟨e3, by rw [pybind_err]⟩
  rw [pybind_ok]
  rcases h4 : keepFlag config ("keep_daily") ("--keep-daily") with e4 | p4
  · exact ⟨e4, by rw [pybind_err]⟩
  rw [pybind_ok]
  rcases h5 : keepFlag config ("keep_weekly") ("--keep-weekly") with e5 | p5
  · exact ⟨e5, by rw [pybind_err]⟩
  rw [pybind_ok]
  rcases h6 : keepFlag config ("keep_monthly") ("--keep-monthly") with e6 | p6
  · exact ⟨e6, by rw [pybind_err]⟩
  rw [pybind_ok]
  rcases h7 : keepFlag config ("keep_yearly") ("--keep-yearly") with e7 | p7
  · exact ⟨e7, by rw [pybind_err]⟩
  rw [pybind_ok]
  exact hrun _

/-- With remote.repository or remote.prefix missing (or the whole remote
section missing), both archive actions fail before the external tool is
ever invoked: the create action's trace holds at most already-run
before-hooks, and the prune action launches nothing at all. -/
theorem broken_remote_eval (env : ExecEnv) (cfgM : List (String × Value))
    (dry noPrune : Bool) (t : List Event)
    (hbrk : lookupV cfgM ("remote") = none ∨
      ∃ remM, lookupV cfgM ("remote") = some (Value.vMap remM) ∧
        (lookupV remM ("repository") = none ∨ lookupV remM ("prefix") = none)) :
    (∃ evs e, CreateAction.execute env (Value.vMap cfgM) dry noPrune t =
        ⟨Except.error e, t ++ evs⟩ ∧ ∀ x ∈ evs, ∃ s, x = Event.hookRun s) ∧
    (∃ e2, PruneAction.execute env (Value.vMap cfgM) dry t =
        ⟨Except.error e2, t⟩) := by
  have hrunC : ∀ args src, ∃ e,
      run_cmds ("create") (Value.vMap cfgM) true args src = Except.error e := by
    intro args src
    rcases hbrk with hnone | ⟨remM, hr, hd⟩
    · exact ⟨PyErr.keyError ("remote"), run_cmds_err_remote _ _ _ _ _ _
        (by simp [getItem, hnone])⟩
    · have hrem : getItem (Value.vMap cfgM) ("remote") =
          Except.ok (Value.vMap remM) := by simp [getItem, hr]
      rcases hrepo2 : lookupV remM ("repository") with _ | rv
      · exact ⟨PyErr.keyError ("repository"),
          run_cmds_err_repo _ _ _ _ _ remM hrem hrepo2⟩
      · rcases hd with hd1 | hd2
        · rw [hrepo2] at hd1; cases hd1
        · exact run_cmds_err_pfx_archive _ _ _ _ remM rv hrem hrepo2 hd2
  constructor
  · obtain ⟨evs, r, heq, hall⟩ := hooks_run_result ("before") env (Value.vMap cfgM) dry t
    cases r with
    | error e =>
      refine ⟨evs, e, ?_, hall⟩
      rw [createAction_unfold]
      exact runm_bind_err _ _ t (t ++ evs) e heq
    | ok u =>
      obtain ⟨e, hcmds⟩ := action_create_cmds_err (Value.vMap cfgM) dry hrunC
      refine ⟨evs, e, ?_, hall⟩
      rw [createAction_unfold]
      refine (runm_bind_ok (hooks_before env (Value.vMap cfgM) dry) _ t
        (t ++ evs) u heq).trans ?_
      exact runm_bind_err _ _ (t ++ evs) (t ++ evs) e
        (action_create_eval_err env (Value.vMap cfgM) dry e (t ++ evs) hcmds)
  · rcases hbrk with hnone | ⟨remM, hr, hd⟩
    · exact ⟨PyErr.keyError ("remote"),
        action_prune_eval_err env _ dry _ t
          (action_prune_cmds_err_remote _ dry _ (by simp [getItem, hnone]))⟩
    · have hrem : getItem (Value.vMap cfgM) ("remote") =
          Except.ok (Value.vMap remM) := by simp [getItem, hr]
      rcases hpv : lookupV remM ("prefix") with _ | pv
      · exact ⟨PyErr.keyError ("prefix"),
          action_prune_eval_err env _ dry _ t
            (action_prune_cmds_err_pfx _ dry _ _ hrem (by simp [getItem, hpv]))⟩
      · rcases hd with hd1 | hd2
        · obtain ⟨e, hcmds⟩ := action_prune_cmds_err_run (Value.vMap cfgM) dry
            (Value.vMap remM) pv hrem (by simp [getItem, hpv])
            (fun args => ⟨PyErr.keyError ("repository"),
              run_cmds_err_repo _ _ _ _ _ remM hrem hd1⟩)
          exact ⟨e, action_prune_eval_err env _ dry e t hcmds⟩
        · rw [hpv] at hd2; cases hd2

/-- A policy whose location.source is the plain string s compiles to the
same create command as the otherwise-identical policy whose source is the
one-element list [s]. -/
theorem source_normalization_eval
    (config config2 : Value) (dry : Bool)
    (locM locM2 remM : List (String × Value)) (s : String)
    (comp ofs ec : Option Value) (eipL exL : Option (List Value))
    (hloc : getItem config ("location") = Except.ok (Value.vMap locM))
    (hloc2 : getItem config2 ("location") = Except.ok (Value.vMap locM2))
    (hrem : getItem config ("remote") = Except.ok (Value.vMap remM))
    (hrem2 : getItem config2 ("remote") = Except.ok (Value.vMap remM))
    (hsrc : lookupV locM ("source") = some (Value.vStr s))
    (hsrc2 : lookupV locM2 ("source") = some (Value.vList [Value.vStr s]))
    (hcomp : lookupV remM ("compression") = comp)
    (hofs : lookupV locM ("one_file_system") = ofs)
    (hofs2 : lookupV locM2 ("one_file_system") = ofs)
    (hec : lookupV locM ("exclude_caches") = ec)
    (hec2 : lookupV locM2 ("exclude_caches") = ec)
    (heip : lookupV locM ("exclude_if_present") = Option.map Value.vList eipL)
    (heip2 : lookupV locM2 ("exclude_if_present") = Option.map Value.vList eipL)
    (hex : lookupV locM ("exclude") = Option.map Value.vList exL)
    (hex2 : lookupV locM2 ("exclude") = Option.map Value.vList exL) :
    action_create_cmds config dry = action_create_cmds config2 dry := by
  rw [action_create_cmds_reduce config dry locM remM (Value.vStr s) comp ofs ec
    eipL exL hloc hrem hsrc hcomp hofs hec heip hex]
  rw [action_create_cmds_reduce config2 dry locM2 remM (Value.vList [Value.vStr s])
    comp ofs ec eipL exL hloc2 hrem2 hsrc2 hcomp hofs2 hec2 heip2 hex2]
  rw [show normSource (Value.vStr s) = normSource (Value.vList [Value.vStr s])
    from rfl]
  exact run_cmds_congr ("create") config config2 true _ _ (hrem.trans hrem2.symm)

/-- The age/size verdict: WARN_TOO_OLD exactly when the elapsed time
exceeds the maximum, regardless of everything else; OK whenever the age
check passes and the size bound is absent or met; WARN_TOO_SMALL only
when the age check passed and the size is strictly below the bound. -/
theorem check_age_cases_eval (parseTs : String → Option Int)
    (now bstart maxAge size : Int) (minSize : Option Int) (st : String)
    (report a0 statsV : Value) (arest : List Value)
    (harch : getItem report ("archives") = Except.ok (Value.vList (a0 :: arest)))
    (hstart : getItem a0 ("start") = Except.ok (Value.vStr st))
    (hts : parseTs st = some bstart)
    (hstats : getItem a0 ("stats") = Except.ok statsV)
    (hsize : getItem statsV ("original_size") = Except.ok (Value.vInt size)) :
    ((now - bstart ≤ maxAge ∧
        (minSize = none ∨ ∃ m, minSize = some m ∧ m ≤ size)) →
      action_check_age parseTs now report maxAge minSize =
        Except.ok Verdict.ok ∧ Verdict.exitCode Verdict.ok = 0) ∧
    (now - bstart > maxAge →
      action_check_age parseTs now report maxAge minSize =
        Except.ok Verdict.warnTooOld ∧ Verdict.exitCode Verdict.warnTooOld = 1) ∧
    (action_check_age parseTs now report maxAge minSize =
        Except.ok Verdict.warnTooSmall →
      (now - bstart ≤ maxAge ∧ ∃ m, minSize = some m ∧ size < m) ∧
        Verdict.exitCode Verdict.warnTooSmall = 1) := by
  have hred : action_check_age parseTs now report maxAge minSize =
      (if maxAge < now - bstart then Except.ok Verdict.warnTooOld
       else match minSize with
         | none => Except.ok Verdict.ok
         | some m =>
           if m = 0 then Except.ok Verdict.ok
           else if size < m then Except.ok Verdict.warnTooSmall
           else Except.ok Verdict.ok) := by
    simp [action_check_age, harch, hstart, hstats, hsize, hts, pyIndex, asStr,
      asInt, pybind_ok]
  refine ⟨?_, ?_, ?_⟩
  · rintro ⟨hle, hmin⟩
    rw [hred, if_neg (by omega)]
    rcases hmin with hnone | ⟨m, rfl, hge⟩
    · subst hnone; exact ⟨rfl, rfl⟩
    · refine ⟨?_, rfl⟩
      by_cases hm : m = 0
      · simp [hm]
      · simp [hm, show ¬ size < m from by omega]
  · intro hgt
    rw [hred, if_pos (by omega)]
    exact ⟨rfl, rfl⟩
  · intro heq
    rw [hred] at heq
    by_cases hgt : maxAge < now - bstart
    · rw [if_pos hgt] at heq; simp at heq
    · rw [if_neg hgt] at heq
      rcases minSize with _ | m
      · simp at heq
      · have heq2 : (if m = 0 then Except.ok Verdict.ok
            else if size < m then Except.ok Verdict.warnTooSmall
            else Except.ok Verdict.ok) = Except.ok Verdict.warnTooSmall := heq
        by_cases hm : m = 0
        · rw [if_pos hm] at heq2; simp at heq2
        · rw [if_neg hm] at heq2
          by_cases hlt : size < m
          · exact ⟨⟨by omega, m, rfl, hlt⟩, rfl⟩
          · rw [if_neg hlt] at heq2; simp at heq2

/-- A report whose archive list is missing, not a list, or empty makes the
monitoring check raise before any verdict is produced: the result is an
uncaught error, never OK and never a WARN verdict. -/
theorem malformed_report_eval (parseTs : String → Option Int) (now maxAge : Int)
    (minSize : Option Int) (report : Value)
    (hbad : (∀ l, getItem report ("archives") ≠ Except.ok (Value.vList l)) ∨
      getItem report ("archives") = Except.ok (Value.vList [])) :
    ∃ e, action_check_age parseTs now report maxAge minSize = Except.error e := by
  simp only [action_check_age]
  rcases h1 : getItem report ("archives") with e | av
  · exact ⟨e, by rw [pybind_err]⟩
  rw [pybind_ok]
  rcases hbad with hno | hemp
  · cases av with
    | vList l => exact absurd h1 (hno l)
    | vNull => exact ⟨PyErr.typeError,
        by rw [show pyIndex Value.vNull 0 = Except.error PyErr.typeError from rfl,
          pybind_err]⟩
    | vBool b => exact ⟨PyErr.typeError,
        by rw [show pyIndex (Value.vBool b) 0 = Except.error PyErr.typeError
          from rfl, pybind_err]⟩
    | vInt n => exact ⟨PyErr.typeError,
        by rw [show pyIndex (Value.vInt n) 0 = Except.error PyErr.typeError
          from rfl, pybind_err]⟩
    | vMap m => exact ⟨PyErr.keyError (toString 0),
        by rw [show pyIndex (Value.vMap m) 0 =
          Except.error (PyErr.keyError (toString 0)) from rfl, pybind_err]⟩
    | vStr s =>
      rcases hc : s.data[0]? with _ | c
      · refine ⟨PyErr.indexError, ?_⟩
        rw [show pyIndex (Value.vStr s) 0 = Except.error PyErr.indexError
          from by simp [pyIndex, String.toList, hc], pybind_err]
      · refine ⟨PyErr.typeError, ?_⟩
        rw [show pyIndex (Value.vStr s) 0 =
          Except.ok (Value.vStr (String.mk [c])) from by
            simp [pyIndex, String.toList, hc],
          pybind_ok]
        rw [show getItem (Value.vStr (String.mk [c])) ("start") =
          Except.error PyErr.typeError from rfl, pybind_err]
  · have : av = Value.vList [] := by
      rw [h1] at hemp
      exact (Except.ok.injEq _ _).mp hemp
    subst this
    refine ⟨PyErr.indexError, ?_⟩
    rw [show pyIndex (Value.vList []) 0 = Except.error PyErr.indexError
      from rfl, pybind_err]

/-- C1: for every policy, the compiled create command consists of the tool
name, the subaction create, then the optional flags in exactly the fixed
order compression, one-file-system, exclude-caches, exclude-if-present
pairs (in document order), exclude pairs (in document order), dry-run,
followed by the repository argument remote.repository ++ :: ++
remote.prefix ++ - ++ the unresolved timestamp placeholder, followed by
the source paths as trailing positional arguments; the result depends on
the configuration only through the key lookups below, hence not on the
document's key order. -/
theorem create_command_layout
    (config : Value) (dry : Bool) (locM remM : List (String × Value))
    (repo pfx : String) (comp : Option String) (ofs ec : Option Value)
    (eip ex : Option (List String)) (sources : List String)
    (hloc : getItem config ("location") = Except.ok (Value.vMap locM))
    (hrem : getItem config ("remote") = Except.ok (Value.vMap remM))
    (hsrc : lookupV locM ("source") = some (Value.vList (sources.map Value.vStr)))
    (hrepo : lookupV remM ("repository") = some (Value.vStr repo))
    (hpfx : lookupV remM ("prefix") = some (Value.vStr pfx))
    (hcomp : lookupV remM ("compression") = comp.map Value.vStr)
    (hofs : lookupV locM ("one_file_system") = ofs)
    (hec : lookupV locM ("exclude_caches") = ec)
    (heip : lookupV locM ("exclude_if_present") =
      eip.map fun l => Value.vList (l.map Value.vStr))
    (hex : lookupV locM ("exclude") = ex.map fun l => Value.vList (l.map Value.vStr)) :
    action_create_cmds config dry =
      Except.ok (createCmdSpec repo pfx comp (optTruthy ofs) (optTruthy ec)
        (eip.getD []) (ex.getD []) dry sources) :=
  create_cmds_full_eval config dry locM remM repo pfx comp ofs ec eip ex sources
    hloc hrem hsrc hrepo hpfx hcomp hofs hec heip hex

/-- C1 witness: the test policy compiles to the expected create command. -/
theorem create_command_layout_witness :
    action_create_cmds (Value.vMap cfgFullM) false =
      Except.ok (createCmdSpec ("/path/testrepo") ("testprefix") (some ("lz4"))
        true false [".nobackup"] ["/tmp/cache"] false ["src1", "src2"]) :=
  create_command_layout (Value.vMap cfgFullM) false locFull remFull
    ("/path/testrepo") ("testprefix") (some ("lz4")) (some (Value.vBool true))
    (some (Value.vStr ("no"))) (some [".nobackup"]) (some ["/tmp/cache"])
    ["src1", "src2"] rfl rfl rfl rfl rfl rfl rfl rfl rfl rfl

/-- C2: for every policy, the compiled prune command always begins with
stats, list, prefix and remote.prefix, then dry-run exactly when
requested, then one keep flag/value pair per retention key present — and
only for present keys — in the fixed canonical order keep_last,
keep_within, keep_hourly, keep_daily, keep_weekly, keep_monthly,
keep_yearly regardless of the document's key order, and ends with the
repository argument with no archive suffix. -/
theorem prune_command_layout
    (config : Value) (dry : Bool) (remM retM : List (String × Value))
    (repo pfx : String) (kl kw kh kd kwe km ky : Option Value)
    (hrem : getItem config ("remote") = Except.ok (Value.vMap remM))
    (hret : getItem config ("retention") = Except.ok (Value.vMap retM))
    (hrepo : lookupV remM ("repository") = some (Value.vStr repo))
    (hpfx : lookupV remM ("prefix") = some (Value.vStr pfx))
    (hkl : lookupV retM ("keep_last") = kl)
    (hkw : lookupV retM ("keep_within") = kw)
    (hkh : lookupV retM ("keep_hourly") = kh)
    (hkd : lookupV retM ("keep_daily") = kd)
    (hkwe : lookupV retM ("keep_weekly") = kwe)
    (hkm : lookupV retM ("keep_monthly") = km)
    (hky : lookupV retM ("keep_yearly") = ky) :
    action_prune_cmds config dry =
      Except.ok (pruneCmdSpec repo pfx dry (kl.map pyStr) (kw.map pyStr)
        (kh.map pyStr) (kd.map pyStr) (kwe.map pyStr) (km.map pyStr)
        (ky.map pyStr)) :=
  prune_cmds_full_eval config dry remM retM repo pfx kl kw kh kd kwe km ky
    hrem hret hrepo hpfx hkl hkw hkh hkd hkwe hkm hky

/-- C2 witness: the test policy, whose document lists keep_daily before
keep_last, compiles to the prune command with keep_last first. -/
theorem prune_command_layout_witness :
    action_prune_cmds (Value.vMap cfgFullM) false =
      Except.ok (pruneCmdSpec ("/path/testrepo") ("testprefix") false
        (some ("4")) none none (some ("7")) none none none) :=
  prune_command_layout (Value.vMap cfgFullM) false remFull retFull
    ("/path/testrepo") ("testprefix") (some (Value.vStr ("4"))) none none
    (some (Value.vStr ("7"))) none none none
    rfl rfl rfl rfl rfl rfl rfl rfl rfl rfl rfl

/-- C3: for every valid policy whose hooks and create invocation succeed,
running the create action without no-prune launches, in order, each
before-hook in declaration order, exactly one create invocation of the
external tool, each after-hook in declaration order, and exactly one
prune invocation; with no-prune, the prune invocation disappears and the
create command is the only tool invocation. -/
theorem create_action_sequence
    (env : ExecEnv) (noPrune : Bool) (t : List Event)
    (cfgM locM remM retM hkM : List (String × Value))
    (repo pfx : String) (comp : Option String) (ofs ec : Option Value)
    (eip ex : Option (List String)) (sources : List String)
    (kl kw kh kd kwe km ky : Option Value) (bs as : List String)
    (hlocL : lookupV cfgM ("location") = some (Value.vMap locM))
    (hremL : lookupV cfgM ("remote") = some (Value.vMap remM))
    (hretL : lookupV cfgM ("retention") = some (Value.vMap retM))
    (hhk : lookupV cfgM ("hooks") = some (Value.vMap hkM))
    (hbs : lookupV hkM ("before") = some (Value.vList (bs.map Value.vStr)))
    (has : lookupV hkM ("after") = some (Value.vList (as.map Value.vStr)))
    (hsrc : lookupV locM ("source") = some (Value.vList (sources.map Value.vStr)))
    (hrepo : lookupV remM ("repository") = some (Value.vStr repo))
    (hpfx : lookupV remM ("prefix") = some (Value.vStr pfx))
    (hcomp : lookupV remM ("compression") = comp.map Value.vStr)
    (hofs : lookupV locM ("one_file_system") = ofs)
    (hec : lookupV locM ("exclude_caches") = ec)
    (heip : lookupV locM ("exclude_if_present") =
      eip.map fun l => Value.vList (l.map Value.vStr))
    (hex : lookupV locM ("exclude") = ex.map fun l => Value.vList (l.map Value.vStr))
    (hkl : lookupV retM ("keep_last") = kl)
    (hkw : lookupV retM ("keep_within") = kw)
    (hkh : lookupV retM ("keep_hourly") = kh)
    (hkd : lookupV retM ("keep_daily") = kd)
    (hkwe : lookupV retM ("keep_weekly") = kwe)
    (hkm : lookupV retM ("keep_monthly") = km)
    (hky : lookupV retM ("keep_yearly") = ky)
    (hbz : ∀ h ∈ bs, env.hookExit h = 0)
    (haz : ∀ h ∈ as, env.hookExit h = 0)
    (hcz : env.toolExit (createCmdSpec repo pfx comp (optTruthy ofs) (optTruthy ec)
      (eip.getD []) (ex.getD []) false sources) = 0) :
    (CreateAction.execute env (Value.vMap cfgM) false noPrune t).trace =
      t ++ bs.map Event.hookRun
        ++ [Event.toolRun (createCmdSpec repo pfx comp (optTruthy ofs) (optTruthy ec)
              (eip.getD []) (ex.getD []) false sources)]
        ++ as.map Event.hookRun
        ++ (if noPrune then []
            else [Event.toolRun (pruneCmdSpec repo pfx false (kl.map pyStr)
              (kw.map pyStr) (kh.map pyStr) (kd.map pyStr) (kwe.map pyStr)
              (km.map pyStr) (ky.map pyStr))]) :=
  create_sequence_eval env noPrune t cfgM locM remM retM hkM repo pfx comp ofs ec
    eip ex sources kl kw kh kd kwe km ky bs as hlocL hremL hretL hhk hbs has hsrc
    hrepo hpfx hcomp hofs hec heip hex hkl hkw hkh hkd hkwe hkm hky hbz haz hcz

/-- C3 witness: on the test policy the create action launches before-hook,
create, after-hook, prune, in that order. -/
theorem create_action_sequence_witness :
    (CreateAction.execute envOk (Value.vMap cfgFullM) false false []).trace =
      [Event.hookRun ("echo before"),
       Event.toolRun (createCmdSpec ("/path/testrepo") ("testprefix") (some ("lz4"))
         true false [".nobackup"] ["/tmp/cache"] false ["src1", "src2"]),
       Event.hookRun ("echo after"),
       Event.toolRun (pruneCmdSpec ("/path/testrepo") ("testprefix") false
         (some ("4")) none none (some ("7")) none none none)] :=
  create_action_sequence envOk false [] cfgFullM locFull remFull retFull hkFull
    ("/path/testrepo") ("testprefix") (some ("lz4")) (some (Value.vBool true))
    (some (Value.vStr ("no"))) (some [".nobackup"]) (some ["/tmp/cache"])
    ["src1", "src2"] (some (Value.vStr ("4"))) none none (some (Value.vStr ("7")))
    none none none ["echo before"] ["echo after"]
    rfl rfl rfl rfl rfl rfl rfl rfl rfl rfl rfl rfl rfl rfl rfl rfl rfl rfl rfl
    rfl rfl (fun _ _ => rfl) (fun _ _ => rfl) rfl

/-- C4: for every policy whose before-hook list contains a command that
exits non-zero (dry-run off), the create action aborts at that hook: the
hooks before it have run, no later before-hook runs, the external tool is
never invoked, no after-hook runs, no prune runs, and the error carries
the failing hook's exit status. -/
theorem before_hook_failure_aborts
    (env : ExecEnv) (noPrune : Bool) (t : List Event)
    (cfgM hkM : List (String × Value)) (pre : List String) (h : String)
    (rest : List Value)
    (hhk : lookupV cfgM ("hooks") = some (Value.vMap hkM))
    (hbs : lookupV hkM ("before") =
      some (Value.vList (pre.map Value.vStr ++ Value.vStr h :: rest)))
    (hpre : ∀ x ∈ pre, env.hookExit x = 0)
    (hh : ¬ env.hookExit h = 0) :
    CreateAction.execute env (Value.vMap cfgM) false noPrune t =
      ⟨Except.error (PyErr.calledProcessError (env.hookExit h)),
       t ++ pre.map Event.hookRun ++ [Event.hookRun h]⟩ :=
  hook_failure_eval env noPrune t cfgM hkM pre h rest hhk hbs hpre hh

/-- C4 witness: with before-hooks true, false, later the action launches
true then false and stops with the hook's exit status 1; no tool runs. -/
theorem before_hook_failure_aborts_witness :
    CreateAction.execute envHookFail (Value.vMap cfgHookFailM) false false [] =
      ⟨Except.error (PyErr.calledProcessError 1),
       [Event.hookRun ("true"), Event.hookRun ("false")]⟩ :=
  before_hook_failure_aborts envHookFail false [] cfgHookFailM hkFail
    ["true"] ("false") [Value.vStr ("later")] rfl rfl (by decide) (by decide)

/-- C5: for every status report with a most-recent archive, the monitoring
check returns OK with exit code 0 when the elapsed time is at most the
maximum age and the size bound is absent or met; WARN_TOO_OLD with exit
code 1 whenever the elapsed time strictly exceeds the maximum age,
regardless of size; and WARN_TOO_SMALL with exit code 1 only when the age
check passed and the size is strictly below the bound. -/
theorem check_age_verdict_cases (parseTs : String → Option Int)
    (now bstart maxAge size : Int) (minSize : Option Int) (st : String)
    (report a0 statsV : Value) (arest : List Value)
    (harch : getItem report ("archives") = Except.ok (Value.vList (a0 :: arest)))
    (hstart : getItem a0 ("start") = Except.ok (Value.vStr st))
    (hts : parseTs st = some bstart)
    (hstats : getItem a0 ("stats") = Except.ok statsV)
    (hsize : getItem statsV ("original_size") = Except.ok (Value.vInt size)) :
    ((now - bstart ≤ maxAge ∧
        (minSize = none ∨ ∃ m, minSize = some m ∧ m ≤ size)) →
      action_check_age parseTs now report maxAge minSize =
        Except.ok Verdict.ok ∧ Verdict.exitCode Verdict.ok = 0) ∧
    (now - bstart > maxAge →
      action_check_age parseTs now report maxAge minSize =
        Except.ok Verdict.warnTooOld ∧ Verdict.exitCode Verdict.warnTooOld = 1) ∧
    (action_check_age parseTs now report maxAge minSize =
        Except.ok Verdict.warnTooSmall →
      (now - bstart ≤ maxAge ∧ ∃ m, minSize = some m ∧ size < m) ∧
        Verdict.exitCode Verdict.warnTooSmall = 1) :=
  check_age_cases_eval parseTs now bstart maxAge size minSize st report a0 statsV
    arest harch hstart hts hstats hsize

/-- C5 witness: a report ninety-five time units older than allowed yields
WARN_TOO_OLD. -/
theorem check_age_verdict_cases_witness :
    action_check_age (fun _ => some 5) 100 rptGood 3 none =
      Except.ok Verdict.warnTooOld :=
  ((check_age_verdict_cases (fun _ => some 5) 100 5 3 100 none
    ("2024-01-01T00:00:00.000000") rptGood a0W
    (Value.vMap [("original_size", Value.vInt 100)]) []
    rfl rfl rfl rfl rfl).2.1 (by decide)).1

/-- C6: the truthy-boolean coercion returns true exactly for the native
boolean true, a string lower-casing to yes or true, or the integer 1;
every other value is false, and an absent key makes the membership guard
false so no flag is emitted. -/
theorem truthy_coercion_characterization :
    (∀ v : Value, config_is_true v = true ↔
      (v = Value.vBool true ∨
       (∃ s, v = Value.vStr s ∧ (strLower s = "yes" ∨ strLower s = "true")) ∨
       v = Value.vInt 1)) ∧
    (∀ (m : List (String × Value)) (k : String),
      lookupV m k = none → contains (Value.vMap m) k = Except.ok false) := by
  constructor
  · intro v
    cases v with
    | vBool b => cases b <;> simp [config_is_true]
    | vStr s => simp [config_is_true]
    | vInt n => simp [config_is_true]
    | vNull => simp [config_is_true]
    | vList l => simp [config_is_true]
    | vMap m => simp [config_is_true]
  · intro m k h
    simp [contains, h]

/-- C6 witness: the string Yes coerces to true and an absent key guards
to false. -/
theorem truthy_coercion_characterization_witness :
    config_is_true (Value.vStr ("Yes")) = true ∧
    contains (Value.vMap [("a", Value.vInt 1)]) ("b") = Except.ok false :=
  ⟨(truthy_coercion_characterization.1 (Value.vStr ("Yes"))).mpr
      (Or.inr (Or.inl ⟨"Yes", rfl, Or.inl (by decide)⟩)),
   truthy_coercion_characterization.2 [("a", Value.vInt 1)] ("b") rfl⟩

/-- C7 counterexample: with remote missing and a before-hook declared, the
create action launches the hook process and only afterwards fails with
the key-lookup error for remote — so the failure does not precede every
process launch, contradicting the claim's hooks-included ordering. -/
theorem create_runs_hook_before_remote_error :
    (CreateAction.execute c7env (Value.vMap c7cfgM) false false []).res =
      Except.error (PyErr.keyError ("remote")) ∧
    Event.hookRun ("echo hi") ∈
      (CreateAction.execute c7env (Value.vMap c7cfgM) false false []).trace :=
  ⟨rfl,
   by
    rw [show (CreateAction.execute c7env (Value.vMap c7cfgM) false false []).trace
      = [Event.hookRun ("echo hi")] from rfl]
    exact List.mem_singleton.mpr rfl⟩

/-- C7 (amended): for every configuration whose remote section is missing,
or whose remote mapping lacks repository or prefix, the create and prune
actions fail with an uncaught error before the external tool is ever
invoked: the create trace gains only hook launches (before-hooks may
already have run), and the prune trace gains nothing. -/
theorem missing_remote_fails_before_tool (env : ExecEnv)
    (cfgM : List (String × Value)) (dry noPrune : Bool) (t : List Event)
    (hbrk : lookupV cfgM ("remote") = none ∨
      ∃ remM, lookupV cfgM ("remote") = some (Value.vMap remM) ∧
        (lookupV remM ("repository") = none ∨ lookupV remM ("prefix") = none)) :
    (∃ evs e, CreateAction.execute env (Value.vMap cfgM) dry noPrune t =
        ⟨Except.error e, t ++ evs⟩ ∧ ∀ x ∈ evs, ∃ s, x = Event.hookRun s) ∧
    (∃ e2, PruneAction.execute env (Value.vMap cfgM) dry t =
        ⟨Except.error e2, t⟩) :=
  broken_remote_eval env cfgM dry noPrune t hbrk

/-- C7 (amended) witness: the remote-less configuration fails both actions
with no tool launch. -/
theorem missing_remote_fails_before_tool_witness :
    (∃ evs e, CreateAction.execute c7env (Value.vMap c7cfgM) false false [] =
        ⟨Except.error e, [] ++ evs⟩ ∧ ∀ x ∈ evs, ∃ s, x = Event.hookRun s) ∧
    (∃ e2, PruneAction.execute c7env (Value.vMap c7cfgM) false [] =
        ⟨Except.error e2, []⟩) :=
  missing_remote_fails_before_tool c7env c7cfgM false false [] (Or.inl rfl)

/-- C8: for every status report whose archive list is missing, not a list,
or empty, the monitoring check fails with an uncaught error: it is never
turned into an OK verdict nor into a WARN verdict. -/
theorem malformed_archive_list_raises (parseTs : String → Option Int)
    (now maxAge : Int) (minSize : Option Int) (report : Value)
    (hbad : (∀ l, getItem report ("archives") ≠ Except.ok (Value.vList l)) ∨
      getItem report ("archives") = Except.ok (Value.vList [])) :
    ∃ e, action_check_age parseTs now report maxAge minSize = Except.error e :=
  malformed_report_eval parseTs now maxAge minSize report hbad

/-- C8 witness: the empty archive list raises. -/
theorem malformed_archive_list_raises_witness :
    ∃ e, action_check_age (fun _ => some 0) 0
      (Value.vMap [("archives", Value.vList [])]) 0 none = Except.error e :=
  malformed_archive_list_raises (fun _ => some 0) 0 0 none
    (Value.vMap [("archives", Value.vList [])]) (Or.inr rfl)

/-- C9: a policy whose location.source is the single string s compiles to
the same create command as the policy with source replaced by the
one-element list holding s, all other lookups being equal. -/
theorem string_source_equals_singleton_list
    (config config2 : Value) (dry : Bool)
    (locM locM2 remM : List (String × Value)) (s : String)
    (comp ofs ec : Option Value) (eipL exL : Option (List Value))
    (hloc : getItem config ("location") = Except.ok (Value.vMap locM))
    (hloc2 : getItem config2 ("location") = Except.ok (Value.vMap locM2))
    (hrem : getItem config ("remote") = Except.ok (Value.vMap remM))
    (hrem2 : getItem config2 ("remote") = Except.ok (Value.vMap remM))
    (hsrc : lookupV locM ("source") = some (Value.vStr s))
    (hsrc2 : lookupV locM2 ("source") = some (Value.vList [Value.vStr s]))
    (hcomp : lookupV remM ("compression") = comp)
    (hofs : lookupV locM ("one_file_system") = ofs)
    (hofs2 : lookupV locM2 ("one_file_system") = ofs)
    (hec : lookupV locM ("exclude_caches") = ec)
    (hec2 : lookupV locM2 ("exclude_caches") = ec)
    (heip : lookupV locM ("exclude_if_present") = Option.map Value.vList eipL)
    (heip2 : lookupV locM2 ("exclude_if_present") = Option.map Value.vList eipL)
    (hex : lookupV locM ("exclude") = Option.map Value.vList exL)
    (hex2 : lookupV locM2 ("exclude") = Option.map Value.vList exL) :
    action_create_cmds config dry = action_create_cmds config2 dry :=
  source_normalization_eval config config2 dry locM locM2 remM s comp ofs ec
    eipL exL hloc hloc2 hrem hrem2 hsrc hsrc2 hcomp hofs hofs2 hec hec2 heip
    heip2 hex hex2

/-- C9 witness: the two minimal policies compile identically. -/
theorem string_source_equals_singleton_list_witness :
    action_create_cmds
        (Value.vMap [("location", Value.vMap locOnlyS),
          ("remote", Value.vMap remMin)]) false =
      action_create_cmds
        (Value.vMap [("location", Value.vMap locOnlyL),
          ("remote", Value.vMap remMin)]) false :=
  string_source_equals_singleton_list
    (Value.vMap [("location", Value.vMap locOnlyS), ("remote", Value.vMap remMin)])
    (Value.vMap [("location", Value.vMap locOnlyL), ("remote", Value.vMap remMin)])
    false locOnlyS locOnlyL remMin ("one") none none none none none
    rfl rfl rfl rfl rfl rfl rfl rfl rfl rfl rfl rfl rfl rfl rfl

/-- C10: beyond the required remote fields, the create action reads
location.source unconditionally and the prune action reads the retention
section unconditionally: a location section without source fails the
create action with the key-lookup error for source, and a configuration
without a retention section fails the prune action with the key-lookup
error for retention, in both cases with no process launched. -/
theorem unconditional_required_reads :
    (∀ (env : ExecEnv) (config : Value) (dry : Bool) (t : List Event)
        (locM : List (String × Value)),
      getItem config ("location") = Except.ok (Value.vMap locM) →
      lookupV locM ("source") = none →
      action_create env config dry t =
        ⟨Except.error (PyErr.keyError ("source")), t⟩) ∧
    (∀ (env : ExecEnv) (dry : Bool) (t : List Event)
        (cfgM remM : List (String × Value)) (pfxV : Value),
      lookupV cfgM ("remote") = some (Value.vMap remM) →
      lookupV remM ("prefix") = some pfxV →
      lookupV cfgM ("retention") = none →
      PruneAction.execute env (Value.vMap cfgM) dry t =
        ⟨Except.error (PyErr.keyError ("retention")), t⟩) :=
  ⟨fun env config dry t locM hloc hsrc =>
      create_missing_source_eval env config dry t locM hloc hsrc,
   fun env dry t cfgM remM pfxV h1 h2 h3 =>
      prune_missing_retention_eval env dry t cfgM remM pfxV h1 h2 h3⟩

/-- C10 witness: a sourceless location fails create, a retentionless
configuration fails prune, both without launching anything. -/
theorem unconditional_required_reads_witness :
    action_create envOk (Value.vMap [("location", Value.vMap [])]) false [] =
      ⟨Except.error (PyErr.keyError ("source")), []⟩ ∧
    PruneAction.execute envOk (Value.vMap [("remote", Value.vMap remMin)])
        false [] =
      ⟨Except.error (PyErr.keyError ("retention")), []⟩ :=
  ⟨unconditional_required_reads.1 envOk
      (Value.vMap [("location", Value.vMap [])]) false [] [] rfl rfl,
   unconditional_required_reads.2 envOk false []
      [("remote", Value.vMap remMin)] remMin (Value.vStr ("p")) rfl rfl rfl⟩
